import Mathlib

/-!
Shallow embedding of the conversation-analysis scoring service
(`src/index.js`, plus the single-date sampling variant in `src/unnamed/part_000`).

Modelling conventions:
* JavaScript values are modelled by the inductive type `JSVal`; JS numbers are
  modelled as rationals (`ℚ`).  The scoring weights (0.25, 0.20, ...) and the
  two-decimal rounding are exact in `ℚ`; for every concrete value appearing in
  the claims the double-precision computation agrees with the rational one.
* A thrown JS exception (`TypeError` from calling `.toLowerCase()` on a
  non-string, `.toString()` on `null`, ...) is modelled as `Except.error ()`.
* Objects are association lists in insertion order, mirroring JS object key
  order; property read is first occurrence, property write replaces the first
  occurrence or appends.
* `normalizeAnalysisResult` in the source builds a SHALLOW copy
  (`const normalized = { ...result }`): top-level assignments hit the copy
  only, while assignments through a nested object (e.g.
  `normalized.bot_tone.tone = ...`) mutate an object shared with the caller's
  input.  The embedding therefore returns a pair `(returned value, the input
  value as it stands after the call)`, threading both through each statement.
-/

/-- Model of a JavaScript value (the fragment the service manipulates:
no arrays, functions or symbols occur on the analysed paths). -/
inductive JSVal : Type where
  | vNull  : JSVal
  | vUndef : JSVal
  | vBool  : Bool → JSVal
  | vNum   : ℚ → JSVal
  | vStr   : String → JSVal
  | vObj   : List (String × JSVal) → JSVal

namespace JSVal

/-- JS truthiness (`if (v)`): `null`, `undefined`, `false`, `0`, `""` are
falsy; every object is truthy. -/
def truthy : JSVal → Bool
  | vNull => false
  | vUndef => false
  | vBool b => b
  | vNum q => q != 0
  | vStr s => s ≠ ""
  | vObj _ => true

/-- First-occurrence lookup in an object's field list. -/
def getF : List (String × JSVal) → String → JSVal
  | [], _ => vUndef
  | (k, v) :: rest, key => if k = key then v else getF rest key

/-- Property write: replace the first occurrence, else append (JS object
insertion-order semantics). -/
def setF : List (String × JSVal) → String → JSVal → List (String × JSVal)
  | [], key, v => [(key, v)]
  | (k, w) :: rest, key, v =>
      if k = key then (key, v) :: rest else (k, w) :: setF rest key v

/-- Plain property access `o.k`: throws on `null`/`undefined`, yields
`undefined` on primitives (none of the accessed names is a builtin). -/
def getProp : JSVal → String → Except Unit JSVal
  | vNull, _ => .error ()
  | vUndef, _ => .error ()
  | vObj fs, k => .ok (getF fs k)
  | _, _ => .ok vUndef

/-- Optional-chain access `o?.k`: `undefined` on `null`/`undefined`,
otherwise as `getProp`. -/
def getOpt : JSVal → String → JSVal
  | vNull, _ => vUndef
  | vUndef, _ => vUndef
  | vObj fs, k => getF fs k
  | _, _ => vUndef

/-- Strict identity check against `undefined`: `v !== undefined` is `!v.isUndef` (line 451). -/
def isUndef : JSVal → Bool
  | vUndef => true
  | _ => false

end JSVal

open JSVal

/-- ASCII lower-casing of one character, the fragment of
`String.prototype.toLowerCase` exercised by the enum values the service
compares against. -/
def lowerChar (c : Char) : Char :=
  if 65 ≤ c.toNat ∧ c.toNat ≤ 90 then Char.ofNat (c.toNat + 32) else c

/-- Model of `s.toLowerCase()` for the strings the service handles. -/
def jsToLower (s : String) : String := ⟨s.data.map lowerChar⟩

/-- Call `v.toLowerCase()` on an arbitrary JS value: succeeds only on strings,
otherwise a `TypeError` is thrown. -/
def jsToLowerCall : JSVal → Except Unit String
  | vStr s => .ok (jsToLower s)
  | _ => .error ()

/-! ## Normalizer (`normalizeAnalysisResult`, src/index.js lines 146-212) -/

/-- One guarded top-level lower-casing statement, the pattern of
src/index.js lines 154-156 / 159-161 / 163-165 and of the
`response_quality` sub-fields (lines 190-204):
`if (o.k && typeof o.k === 'string') { o.k = o.k.toLowerCase(); }`. -/
def lowerScalarF (fs : List (String × JSVal)) (k : String) : List (String × JSVal) :=
  match getF fs k with
  | vStr s => if s ≠ "" then setF fs k (vStr (jsToLower s)) else fs
  | _ => fs

/-- One nested lower-casing statement, the pattern of src/index.js
lines 168-170 / 172-174 / 176-178 / 180-182 / 184-186 / 207-209:
`if (o.k?.k2) { o.k.k2 = o.k.k2.toLowerCase(); }`.
There is no `typeof` guard here, so a truthy non-string at the inner path
makes `.toLowerCase()` throw.  The inner object is shared between the
shallow copy `res` and the caller's object `inp`, so the update lands in
both. -/
def lowerNestedF (res inp : List (String × JSVal)) (k k2 : String) :
    Except Unit (List (String × JSVal) × List (String × JSVal)) :=
  match getF res k with
  | vObj q =>
      let v := getF q k2
      if v.truthy then
        match v with
        | vStr s =>
            let q2 := vObj (setF q k2 (vStr (jsToLower s)))
            .ok (setF res k q2, setF inp k q2)
        | _ => .error ()
      else .ok (res, inp)
  | _ => .ok (res, inp)

/-- The `response_quality` block, src/index.js lines 188-205:
`const quality = normalized.response_quality;` followed by five guarded
lower-casings of its sub-fields.  `quality` is the same object that the
caller's input holds, so the updates land in both. -/
def lowerRespQualityF (res inp : List (String × JSVal)) :
    List (String × JSVal) × List (String × JSVal) :=
  match getF res "response_quality" with
  | vObj q =>
      let q := lowerScalarF q "is_clear"
      let q := lowerScalarF q "is_concise"
      let q := lowerScalarF q "is_easy_to_understand"
      let q := lowerScalarF q "is_relevant"
      let q := lowerScalarF q "overall_quality_score"
      (setF res "response_quality" (vObj q), setF inp "response_quality" (vObj q))
  | _ => (res, inp)

/-- The body of `normalizeAnalysisResult` for an object input, in source
statement order (src/index.js lines 151-211).  The pair threads
`(normalized, result)`: the shallow copy and the caller's object.  Top-level
assignments update only the copy; nested assignments update both, because
the nested objects are shared.  `Except.error` models a thrown `TypeError`. -/
def normalizeFields (fields : List (String × JSVal)) :
    Except Unit (List (String × JSVal) × List (String × JSVal)) := do
  let res := fields                                       -- const normalized = { ...result };
  let res := lowerScalarF res "accuracy_level"
  let res := lowerScalarF res "is_chat_completed"
  let res := lowerScalarF res "overall_latency_classification"
  let (res, inp) ← lowerNestedF res fields "human_escalation" "is_escalated"
  let (res, inp) ← lowerNestedF res inp "issue_status" "status"
  let (res, inp) ← lowerNestedF res inp "escalation_necessity" "was_escalation_necessary"
  let (res, inp) ← lowerNestedF res inp "bot_tone" "tone"
  let (res, inp) ← lowerNestedF res inp "user_sentiment" "sentiment"
  let (res, inp) := lowerRespQualityF res inp
  let (res, inp) ← lowerNestedF res inp "conversation_quality" "quality"
  .ok (res, inp)

/-- The normalizer `normalizeAnalysisResult` (src/index.js lines 146-212).  Returns the pair
`(returned value, the input value as it stands after the call)`.
Line 147-149: a falsy or non-object input is returned unchanged (note
`typeof null === 'object'` but `!null` already catches `null`). -/
def normalizeAnalysisResult (result : JSVal) : Except Unit (JSVal × JSVal) :=
  match result with
  | vObj fields => (normalizeFields fields).map (fun rp => (vObj rp.1, vObj rp.2))
  | v => .ok (v, v)

/-! ## Scorer (`calculateSessionScore`, src/index.js lines 215-398) -/

/-- Model of `Math.round(q)`: round half toward positive infinity. -/
def jsMathRound (q : ℚ) : ℤ := ⌊q + 1/2⌋

/-- Strict equality `v === 'lit'` of a JS value against a string literal. -/
def JSVal.eqStr : JSVal → String → Bool
  | vStr s, t => s = t
  | _, _ => false

/-- The `scoreBreakdown` object assembled by `calculateSessionScore`
(fields in source insertion order), each entry the weighted point
contribution of one factor, plus the `penalties` entry. -/
structure Breakdown where
  issueResolution : ℚ
  escalationAvoidance : ℚ
  userExperience : ℚ
  chatCompletion : ℚ
  responseQuality : ℚ
  accuracy : ℚ
  responseComponents : ℚ
  userSentiment : ℚ
  userEffort : ℚ
  botTone : ℚ
  penalties : ℚ
  deriving DecidableEq, Repr

/-- Result type of the scorer: `calculateSessionScore` returns the plain number `0` for a falsy
analysis (line 216-219) and otherwise the `{ totalScore, breakdown }`
record (lines 394-397): the result shape is a sum. -/
inductive ScoreOut : Type where
  | num : ℚ → ScoreOut
  | result : (totalScore : ℚ) → (breakdown : Breakdown) → ScoreOut
  deriving DecidableEq, Repr

/-- Factor 1, Issue Resolution (lines 227-231):
`analysis.issue_status?.status` truthy, lower-cased, `'resolved'` → 100. -/
def issueResolutionRaw (analysis : JSVal) : Except Unit ℚ :=
  let v := getOpt (getOpt analysis "issue_status") "status"
  if v.truthy then do
    let s ← jsToLowerCall v
    .ok (if s = "resolved" then 100 else 0)
  else .ok 0

/-- Factor 2, Human Escalation Impact (lines 236-240):
`analysis.human_escalation?.is_escalated` lower-cased, `'no'` → 100. -/
def escalationRaw (analysis : JSVal) : Except Unit ℚ :=
  let v := getOpt (getOpt analysis "human_escalation") "is_escalated"
  if v.truthy then do
    let s ← jsToLowerCall v
    .ok (if s = "no" then 100 else 0)
  else .ok 0

/-- Factor 3, User Experience Quality (lines 245-257): a `switch` with
strict numeric cases over `experience_level`; any non-matching truthy
value falls to `default: 0`. -/
def userExperienceRaw (analysis : JSVal) : ℚ :=
  let v := getOpt (getOpt analysis "user_experience") "experience_level"
  if v.truthy then
    match v with
    | vNum q =>
        if q = 5 then 100 else if q = 4 then 80 else if q = 3 then 60
        else if q = 2 then 40 else if q = 1 then 20 else 0
    | _ => 0
  else 0

/-- Factor 4, Conversation Completion (lines 262-268):
`analysis.is_chat_completed` truthy, lower-cased, `'yes'` → 100. -/
def completionRaw (analysis : JSVal) : Except Unit ℚ :=
  let v := getOpt analysis "is_chat_completed"
  if v.truthy then do
    let s ← jsToLowerCall v
    .ok (if s = "yes" then 100 else 0)
  else .ok 0

/-- Factor 5, Overall Response Quality (lines 271-284). -/
def responseQualityRaw (analysis : JSVal) : Except Unit ℚ :=
  let v := getOpt (getOpt analysis "response_quality") "overall_quality_score"
  if v.truthy then do
    let s ← jsToLowerCall v
    .ok (if s = "excellent" then 100 else if s = "good" then 75
         else if s = "fair" then 50 else if s = "poor" then 25 else 0)
  else .ok 0

/-- Factor 6, Response Accuracy (lines 287-297). -/
def accuracyRaw (analysis : JSVal) : Except Unit ℚ :=
  let v := getOpt analysis "accuracy_level"
  if v.truthy then do
    let s ← jsToLowerCall v
    .ok (if s = "correct" then 100 else if s = "partially correct" then 50
         else if s = "wrong" then 0 else 0)
  else .ok 0

/-- One component of Factor 7 (lines 306-312):
`analysis.response_quality[component]` truthy, lower-cased, `'yes'` → 100. -/
def componentPoints (rq : JSVal) (component : String) : Except Unit ℚ :=
  let v := getOpt rq component
  if v.truthy then do
    let s ← jsToLowerCall v
    .ok (if s = "yes" then 100 else 0)
  else .ok 0

/-- Factor 7, Response Components (lines 302-314): the average of the four
flags, each `'yes'` → 100, accumulated then divided by 4. -/
def componentsRaw (analysis : JSVal) : Except Unit ℚ :=
  let rq := getOpt analysis "response_quality"
  if rq.truthy then do
    let p1 ← componentPoints rq "is_clear"
    let p2 ← componentPoints rq "is_concise"
    let p3 ← componentPoints rq "is_easy_to_understand"
    let p4 ← componentPoints rq "is_relevant"
    .ok ((p1 + p2 + p3 + p4) / 4)
  else .ok 0

/-- Factor 8, User Sentiment (lines 319-330): note the `default` branch
scores 70 (treated as neutral) for an unrecognized truthy sentiment. -/
def sentimentRaw (analysis : JSVal) : Except Unit ℚ :=
  let v := getOpt (getOpt analysis "user_sentiment") "sentiment"
  if v.truthy then do
    let s ← jsToLowerCall v
    .ok (if s = "positive" then 100 else if s = "neutral" then 70
         else if s = "negative" then 30 else if s = "frustrated" then 0 else 70)
  else .ok 0

/-- Factor 9, User Effort Required (lines 335-347), inverted scale. -/
def userEffortRaw (analysis : JSVal) : ℚ :=
  let v := getOpt (getOpt analysis "user_effort") "effort_level"
  if v.truthy then
    match v with
    | vNum q =>
        if q = 1 then 100 else if q = 2 then 80 else if q = 3 then 60
        else if q = 4 then 40 else if q = 5 then 20 else 0
    | _ => 0
  else 0

/-- Factor 10, Bot Communication Tone (lines 352-363): `default` is 70. -/
def botToneRaw (analysis : JSVal) : Except Unit ℚ :=
  let v := getOpt (getOpt analysis "bot_tone") "tone"
  if v.truthy then do
    let s ← jsToLowerCall v
    .ok (if s = "professional" then 100 else if s = "friendly" then 95
         else if s = "neutral" then 70 else if s = "inappropriate" then 0 else 70)
  else .ok 0

/-- Bonus/penalty factors (lines 368-386): the escalation-necessity penalty
uses case-sensitive strict equality (`=== 'no'` / `=== 'yes'`); the latency
penalty lower-cases `overall_latency_classification` first. -/
def penaltiesRaw (analysis : JSVal) : Except Unit ℚ :=
  let p1 : ℚ :=
    if (getOpt (getOpt analysis "escalation_necessity") "was_escalation_necessary").eqStr "no"
        && (getOpt (getOpt analysis "human_escalation") "is_escalated").eqStr "yes"
    then -10 else 0
  let latency := getOpt analysis "overall_latency_classification"
  if latency.truthy then do
    let s ← jsToLowerCall latency
    .ok (if s = "average" then p1 - 2 else if s = "bad" then p1 - 5 else p1)
  else .ok p1

/-- The scorer `calculateSessionScore` (src/index.js lines 215-398).  `totalScore` is
accumulated by `+=` after each factor exactly as in the source, the
weights are lines 232/241/258/267/283/298/315/331/348/364, and the final
value is `Math.max(0, Math.round(totalScore * 100) / 100)` (line 395). -/
def calculateSessionScore (analysis : JSVal) : Except Unit ScoreOut :=
  if analysis.truthy then do
    let totalScore : ℚ := 0
    let s1 ← issueResolutionRaw analysis
    let c1 := s1 * 0.25
    let totalScore := totalScore + c1
    let s2 ← escalationRaw analysis
    let c2 := s2 * 0.20
    let totalScore := totalScore + c2
    let c3 := userExperienceRaw analysis * 0.15
    let totalScore := totalScore + c3
    let s4 ← completionRaw analysis
    let c4 := s4 * 0.10
    let totalScore := totalScore + c4
    let s5 ← responseQualityRaw analysis
    let c5 := s5 * 0.08
    let totalScore := totalScore + c5
    let s6 ← accuracyRaw analysis
    let c6 := s6 * 0.07
    let totalScore := totalScore + c6
    let s7 ← componentsRaw analysis
    let c7 := s7 * 0.05
    let totalScore := totalScore + c7
    let s8 ← sentimentRaw analysis
    let c8 := s8 * 0.05
    let totalScore := totalScore + c8
    let c9 := userEffortRaw analysis * 0.03
    let totalScore := totalScore + c9
    let s10 ← botToneRaw analysis
    let c10 := s10 * 0.02
    let totalScore := totalScore + c10
    let pen ← penaltiesRaw analysis
    let totalScore := totalScore + pen
    .ok (.result (max 0 ((jsMathRound (totalScore * 100) : ℚ) / 100))
          ⟨c1, c2, c3, c4, c5, c6, c7, c8, c9, c10, pen⟩)
  else .ok (.num 0)

/-! ## Aggregator (`calculateAggregateStats`, src/index.js lines 400-509) -/

/-- Counter update `stats.m[key] = (stats.m[key] || 0) + 1`: increment a counter map at a
key, appending the key with count 1 when absent. -/
def incF : List (String × Nat) → String → List (String × Nat)
  | [], key => [(key, 1)]
  | (k, c) :: rest, key =>
      if k = key then (key, c + 1) :: rest else (k, c) :: incF rest key

/-- Model of `v.toString()` as used on `is_anydesk_required` (line 452): throws on
`null` (and `undefined`, though that is filtered out before the call).
Number formatting is modelled only for integers; no claim exercises it. -/
def jsToString : JSVal → Except Unit String
  | vNull => .error ()
  | vUndef => .error ()
  | vBool true => .ok "true"
  | vBool false => .ok "false"
  | vStr s => .ok s
  | vNum q => if q.den = 1 then .ok (toString q.num) else .error ()
  | vObj _ => .ok "[object Object]"

/-- Count one categorical occurrence: the pattern
`if (v) { m[v.toLowerCase()] = (m[v.toLowerCase()] || 0) + 1 }`. -/
def tallyLower (m : List (String × Nat)) (v : JSVal) :
    Except Unit (List (String × Nat)) :=
  if v.truthy then do
    let s ← jsToLowerCall v
    .ok (incF m s)
  else .ok m

/-- The `stats` accumulator object of `calculateAggregateStats`
(src/index.js lines 417-427), counts before percentage conversion.
Level lists hold the pushed numeric values; a pushed truthy non-number
would make the later `reduce` produce `NaN`, which `ℚ` cannot represent,
so the embedding rejects it (no claim exercises that corner). -/
structure CountStats where
  chat_completion : List (String × Nat)
  user_sentiment : List (String × Nat)
  bot_tone : List (String × Nat)
  anydesk_required : List (String × Nat)
  user_experience_levels : List ℚ
  user_effort_levels : List ℚ
  accuracy_levels : List (String × Nat)
  issue_resolution : List (String × Nat)
  human_escalation : List (String × Nat)
  deriving DecidableEq, Repr

/-- The seeded initial `stats` object (lines 417-427). -/
def initCountStats : CountStats :=
  { chat_completion := [("yes", 0), ("no", 0)]
    user_sentiment := []
    bot_tone := []
    anydesk_required := [("true", 0), ("false", 0)]
    user_experience_levels := []
    user_effort_levels := []
    accuracy_levels := []
    issue_resolution := [("resolved", 0), ("unresolved", 0)]
    human_escalation := [("yes", 0), ("no", 0)] }

/-- The AnyDesk tally (lines 451-454): `is_anydesk_required !== undefined`
guards a `.toString()` call, which itself throws on `null`. -/
def tallyAnydesk (m : List (String × Nat)) (v : JSVal) :
    Except Unit (List (String × Nat)) :=
  if v.isUndef then .ok m
  else do
    let s ← jsToString v
    .ok (incF m s)

/-- One numeric-level push (lines 457-458 and 462-463): a truthy value is
pushed onto the level list.  A truthy non-number would poison the later
`reduce` with `NaN`, which `ℚ` cannot represent, so the embedding rejects
it (no claim exercises that corner). -/
def tallyLevel (l : List ℚ) (v : JSVal) : Except Unit (List ℚ) :=
  if v.truthy then
    match v with
    | vNum q => .ok (l ++ [q])
    | _ => .error ()
  else .ok l

/-- The body of `analysisResults.forEach(result => ...)` (lines 429-483)
for one element: reads `result.analysis` and tallies each tracked field.
Plain accesses on `analysis` throw when it is `null`/`undefined`. -/
def tallySession (st : CountStats) (result : JSVal) : Except Unit CountStats := do
  let analysis ← getProp result "analysis"
  let v1 ← getProp analysis "is_chat_completed"
  let chat ← tallyLower st.chat_completion v1
  let sent ← tallyLower st.user_sentiment (getOpt (getOpt analysis "user_sentiment") "sentiment")
  let tone ← tallyLower st.bot_tone (getOpt (getOpt analysis "bot_tone") "tone")
  let anyd ← tallyAnydesk st.anydesk_required
    (getOpt (getOpt analysis "conversation_quality") "is_anydesk_required")
  let expl ← tallyLevel st.user_experience_levels
    (getOpt (getOpt analysis "user_experience") "experience_level")
  let effl ← tallyLevel st.user_effort_levels
    (getOpt (getOpt analysis "user_effort") "effort_level")
  let accv ← getProp analysis "accuracy_level"
  let accl ← tallyLower st.accuracy_levels accv
  let isl ← tallyLower st.issue_resolution (getOpt (getOpt analysis "issue_status") "status")
  let hel ← tallyLower st.human_escalation (getOpt (getOpt analysis "human_escalation") "is_escalated")
  .ok { chat_completion := chat, user_sentiment := sent, bot_tone := tone,
        anydesk_required := anyd, user_experience_levels := expl,
        user_effort_levels := effl, accuracy_levels := accl,
        issue_resolution := isl, human_escalation := hel }

/-- Percentage conversion `convertToPercentages` (src/index.js lines 486-492):
`Math.round((count / totalSessions) * 100)` for every key, in key order. -/
def convertToPercentages (totalSessions : Nat) (m : List (String × Nat)) :
    List (String × ℤ) :=
  m.map (fun kv => (kv.1, jsMathRound ((kv.2 : ℚ) / (totalSessions : ℚ) * 100)))

/-- Average `Math.round((sum / len) * 100) / 100` for a level list, 0 when empty
(lines 499-504). -/
def avgLevel (l : List ℚ) : ℚ :=
  if l.length > 0 then (jsMathRound (l.sum / (l.length : ℚ) * 100) : ℚ) / 100 else 0

/-- The aggregate record returned by `calculateAggregateStats`
(lines 403-413 and 494-508). -/
structure AggregateStats where
  average_chat_completion_rate : List (String × ℤ)
  average_user_sentiment_distribution : List (String × ℤ)
  average_bot_tone_distribution : List (String × ℤ)
  average_anydesk_required : List (String × ℤ)
  average_user_experience_level : ℚ
  average_user_effort_level : ℚ
  average_response_accuracy : List (String × ℤ)
  average_issue_resolution_rate : List (String × ℤ)
  average_human_escalation_rate : List (String × ℤ)
  deriving DecidableEq, Repr

/-- The all-zero aggregate returned for an empty batch (lines 402-414). -/
def emptyAggregateStats : AggregateStats :=
  { average_chat_completion_rate := [("yes", 0), ("no", 0)]
    average_user_sentiment_distribution := []
    average_bot_tone_distribution := []
    average_anydesk_required := [("true", 0), ("false", 0)]
    average_user_experience_level := 0
    average_user_effort_level := 0
    average_response_accuracy := []
    average_issue_resolution_rate := [("resolved", 0), ("unresolved", 0)]
    average_human_escalation_rate := [("yes", 0), ("no", 0)] }

/-- The aggregator `calculateAggregateStats` (src/index.js lines 400-509).  The denominator
`totalSessions` is always the length of the aggregated list (line 416). -/
def calculateAggregateStats (analysisResults : List JSVal) :
    Except Unit AggregateStats :=
  if analysisResults.length = 0 then .ok emptyAggregateStats
  else do
    let totalSessions := analysisResults.length
    let st ← analysisResults.foldlM tallySession initCountStats
    .ok { average_chat_completion_rate := convertToPercentages totalSessions st.chat_completion
          average_user_sentiment_distribution := convertToPercentages totalSessions st.user_sentiment
          average_bot_tone_distribution := convertToPercentages totalSessions st.bot_tone
          average_anydesk_required := convertToPercentages totalSessions st.anydesk_required
          average_user_experience_level := avgLevel st.user_experience_levels
          average_user_effort_level := avgLevel st.user_effort_levels
          average_response_accuracy := convertToPercentages totalSessions st.accuracy_levels
          average_issue_resolution_rate := convertToPercentages totalSessions st.issue_resolution
          average_human_escalation_rate := convertToPercentages totalSessions st.human_escalation }

/-! ## Session pipeline (`app.post('/api/analyze-conversations')`,
src/index.js lines 556-599) -/

/-- One element of `failedSessions`: the no-id failure (line 564) carries
only `index` and `error`; the catch-path failure (lines 588-592) also
carries the session id. -/
structure FailedSession where
  sessionId : Option JSVal
  error : String
  index : Nat

/-- One element of `analysisResults` (lines 576-581; the wall-clock
`timestamp` field is not modelled). -/
structure SessionAnalysisResult where
  sessionId : JSVal
  analysis : JSVal
  score : ScoreOut

/-- Line 560: `session._id?.toString() || session.id || session.session_id`.
`||` takes the first truthy operand (or the last operand).  A `TypeError`
here (nullish session) happens outside the per-session `try` and would
abort the whole batch. -/
def deriveSessionId (session : JSVal) : Except Unit JSVal := do
  let idv ← getProp session "_id"
  let a ←
    match idv with
    | vNull => pure vUndef
    | vUndef => pure vUndef
    | v => do
        let s ← jsToString v
        pure (vStr s)
  if a.truthy then .ok a
  else do
    let b ← getProp session "id"
    if b.truthy then .ok b
    else getProp session "session_id"

/-- One iteration of the per-session loop (lines 558-593): derive the
session id (lines 560-566; a missing id is a per-session failure), call
the external analysis, normalize and score inside the `try`
(lines 570-593); any failure there is recorded with its reason.  The outer
`Except` is a `TypeError` thrown while deriving the id, which happens
outside the `try` and would abort the whole batch. -/
def processOne (analyze : JSVal → Except String JSVal) (i : Nat) (session : JSVal) :
    Except Unit (Sum SessionAnalysisResult FailedSession) := do
  let sid ← deriveSessionId session
  if !sid.truthy then
    .ok (.inr { sessionId := none, error := "No valid session ID", index := i })
  else
    match analyze sid with
    | .error msg => .ok (.inr { sessionId := some sid, error := msg, index := i })
    | .ok rawResult =>
      match normalizeAnalysisResult rawResult with
      | .error _ => .ok (.inr { sessionId := some sid, error := "TypeError", index := i })
      | .ok (normalizedResult, _) =>
        match calculateSessionScore normalizedResult with
        | .error _ => .ok (.inr { sessionId := some sid, error := "TypeError", index := i })
        | .ok sessionScore =>
            .ok (.inl { sessionId := sid, analysis := normalizedResult,
                        score := sessionScore })

/-- The per-session loop of the analyze endpoint (lines 556-599), given the
external analysis call as an oracle `analyze` (an `Except.error` is a
thrown/failed `analyzeSession` with its human-readable message).  Returns
`(analysisResults, failedSessions, processedCount)` accumulated in
retrieval order; a successful iteration appends a result and increments
`processedCount` (lines 576-584), a failed one appends a failure record
and continues (lines 562-566 and 586-593). -/
def processSessions (analyze : JSVal → Except String JSVal) :
    List JSVal → Nat →
    Except Unit (List SessionAnalysisResult × List FailedSession × Nat)
  | [], _ => .ok ([], [], 0)
  | session :: rest, i => do
      let step ← processOne analyze i session
      let (results, failed, processed) ← processSessions analyze rest (i + 1)
      match step with
      | .inl r => .ok (r :: results, failed, processed + 1)
      | .inr f => .ok (results, f :: failed, processed)

/-! ## Date windows (`parseDateInput`, src/unnamed/part_000 lines 48-72;
`getChatSessions`, src/index.js lines 38-52) -/

def isLeapYear (y : ℤ) : Bool := (y % 4 == 0 && y % 100 != 0) || y % 400 == 0

def daysInMonth (y m : ℤ) : ℤ :=
  if m = 2 then (if isLeapYear y then 29 else 28)
  else if m = 4 ∨ m = 6 ∨ m = 9 ∨ m = 11 then 30 else 31

/-- Days from 1970-01-01 to the civil date `y-m-d` (proleptic Gregorian,
the standard era-based algorithm). -/
def daysFromCivil (y m d : ℤ) : ℤ :=
  let yy := if m ≤ 2 then y - 1 else y
  let era := Int.fdiv yy 400
  let yoe := yy - era * 400
  let mp := Int.emod (m + 9) 12
  let doy := Int.fdiv (153 * mp + 2) 5 + d - 1
  let doe := yoe * 365 + Int.fdiv yoe 4 - Int.fdiv yoe 100 + doy
  era * 146097 + doe - 719468

def digitVal (c : Char) : Option ℤ :=
  if '0' ≤ c ∧ c ≤ '9' then some ((c.toNat : ℤ) - 48) else none

/-- Syntactic decomposition of a `YYYY-MM-DD` string. -/
def parseYMD (s : String) : Option (ℤ × ℤ × ℤ) :=
  match s.data with
  | [y1, y2, y3, y4, h1, m1, m2, h2, d1, d2] =>
      if h1 = '-' ∧ h2 = '-' then do
        let a ← digitVal y1
        let b ← digitVal y2
        let c ← digitVal y3
        let d ← digitVal y4
        let e ← digitVal m1
        let f ← digitVal m2
        let g ← digitVal d1
        let h ← digitVal d2
        pure (a * 1000 + b * 100 + c * 10 + d, e * 10 + f, g * 10 + h)
      else none
  | _ => none

/-- Model of `new Date(dateStr + 'T00:00:00.000Z')` (part_000 line 54) for a
`YYYY-MM-DD` input, and likewise of `new Date(dateStr)` for a date-only ISO
string (index.js lines 39-40, parsed as UTC midnight): epoch milliseconds,
`none` for Invalid Date (malformed or out-of-range). -/
def jsParseDateOnly (s : String) : Option ℤ :=
  match parseYMD s with
  | some (y, m, d) =>
      if 1 ≤ m ∧ m ≤ 12 ∧ 1 ≤ d ∧ d ≤ daysInMonth y m then
        some (86400000 * daysFromCivil y m d)
      else none
  | none => none

/-- Model of `date.setUTCHours(h, mi, s, ms)`: keep the UTC day, set the clock. -/
def setUTCHoursOp (millis h mi s ms : ℤ) : ℤ :=
  Int.fdiv millis 86400000 * 86400000 + (h * 3600000 + mi * 60000 + s * 1000 + ms)

/-- The single-date parser `parseDateInput` (src/unnamed/part_000 lines 48-72): parse
`dateStr + 'T00:00:00.000Z'`; `startDate.setUTCHours(0,0,0,0)` and
`endDate.setUTCHours(23,59,59,999)` derive the inclusive day window. -/
def parseDateInput (dateStr : String) : Except String (ℤ × ℤ) :=
  match jsParseDateOnly dateStr with
  | none => .error "Invalid date format. Please use YYYY-MM-DD format."
  | some parsed =>
      .ok (setUTCHoursOp parsed 0 0 0 0, setUTCHoursOp parsed 23 59 59 999)

/-- One `{ field: { $gte: startDate, $lte: endDate } }` arm of the Mongo
date filter: inclusive on both ends; a session without the field does not
match this arm. -/
def tsInWindow (startDate endDate : ℤ) : Option ℤ → Bool
  | some t => startDate ≤ t && t ≤ endDate
  | none => false

/-- The `$or` date filter of part_000 lines 84-91 over the four accepted
timestamp aliases of one stored session. -/
def sessionMatchesDateFilter (startDate endDate : ℤ)
    (createdAt created_at timestamp date : Option ℤ) : Bool :=
  tsInWindow startDate endDate createdAt || tsInWindow startDate endDate created_at ||
  tsInWindow startDate endDate timestamp || tsInWindow startDate endDate date

/-- Model of `date.setHours(h, mi, s, ms)`, which sets the clock in SERVER-LOCAL time;
modelled for a fixed UTC offset of `tzOffsetMin` minutes east of UTC
(`tzOffsetMin = 0` is a server running in UTC). -/
def setHoursLocal (tzOffsetMin millis h mi s ms : ℤ) : ℤ :=
  Int.fdiv (millis + tzOffsetMin * 60000) 86400000 * 86400000
    + (h * 3600000 + mi * 60000 + s * 1000 + ms) - tzOffsetMin * 60000

/-- The query window built by `getChatSessions` (src/index.js lines 38-52):
`startDate = new Date(fromDate)`, `endDate = new Date(toDate)`, then
`endDate.setHours(23, 59, 59, 999)` — local time, hence dependent on the
server's UTC offset. -/
def getChatSessionsWindow (tzOffsetMin : ℤ) (fromDate toDate : String) :
    Except Unit (ℤ × ℤ) :=
  match jsParseDateOnly fromDate, jsParseDateOnly toDate with
  | some s, some e => .ok (s, setHoursLocal tzOffsetMin e 23 59 59 999)
  | _, _ => .error ()

/-- A value is a fixed point of the guarded scalar lower-casing. -/
def scalarFixed (v : JSVal) : Prop :=
  ∀ s, v = vStr s → s = "" ∨ jsToLower s = s

/-- A value (sitting at a top-level key) is a fixed point of the nested
lower-casing targeting its `k2` sub-field, and re-running that step on it
cannot throw. -/
def nestedFixed (v : JSVal) (k2 : String) : Prop :=
  (getOpt v k2).truthy = false ∨ ∃ s, getOpt v k2 = vStr s ∧ jsToLower s = s

/-- A value is a fixed point of the `response_quality` block. -/
def rqFixed (v : JSVal) : Prop :=
  ∀ q, v = vObj q →
    scalarFixed (getF q "is_clear") ∧ scalarFixed (getF q "is_concise") ∧
    scalarFixed (getF q "is_easy_to_understand") ∧ scalarFixed (getF q "is_relevant") ∧
    scalarFixed (getF q "overall_quality_score")

/-- Value-level semantics of one nested lower-casing statement: `none` means
no update, `some v2` means both objects get `v2` at the top-level key,
`error` means the statement throws. -/
def nestedStepV (v : JSVal) (k2 : String) : Except Unit (Option JSVal) :=
  match v with
  | vObj q =>
      match getF q k2 with
      | vStr s =>
          if s ≠ "" then .ok (some (vObj (setF q k2 (vStr (jsToLower s))))) else .ok none
      | w => if w.truthy then .error () else .ok none
  | _ => .ok none

/-- The nested group keys the normalizer mutates through sharing. -/
def nestedGroupKeys : List String :=
  ["human_escalation", "issue_status", "escalation_necessity",
   "bot_tone", "user_sentiment", "response_quality", "conversation_quality"]

/-- A value that `.toLowerCase()` handling can safely be guarded by
truthiness alone: it is a string, or it is falsy (so the guard skips it). -/
def strOrFalsy : JSVal → Bool
  | vStr _ => true
  | v => !v.truthy

/-- Safety precondition under which the normalizer cannot throw: every
truthy value at one of the six unguarded nested enum paths is a string. -/
def normalizeSafe (x : JSVal) : Bool :=
  strOrFalsy (getOpt (getOpt x "human_escalation") "is_escalated") &&
  strOrFalsy (getOpt (getOpt x "issue_status") "status") &&
  strOrFalsy (getOpt (getOpt x "escalation_necessity") "was_escalation_necessary") &&
  strOrFalsy (getOpt (getOpt x "bot_tone") "tone") &&
  strOrFalsy (getOpt (getOpt x "user_sentiment") "sentiment") &&
  strOrFalsy (getOpt (getOpt x "conversation_quality") "quality")

/-- Safety precondition under which the scorer cannot throw: every truthy
value at one of its lower-cased enum paths is a string. -/
def scoreSafe (x : JSVal) : Bool :=
  strOrFalsy (getOpt (getOpt x "issue_status") "status") &&
  strOrFalsy (getOpt (getOpt x "human_escalation") "is_escalated") &&
  strOrFalsy (getOpt x "is_chat_completed") &&
  strOrFalsy (getOpt (getOpt x "response_quality") "overall_quality_score") &&
  strOrFalsy (getOpt x "accuracy_level") &&
  strOrFalsy (getOpt (getOpt x "response_quality") "is_clear") &&
  strOrFalsy (getOpt (getOpt x "response_quality") "is_concise") &&
  strOrFalsy (getOpt (getOpt x "response_quality") "is_easy_to_understand") &&
  strOrFalsy (getOpt (getOpt x "response_quality") "is_relevant") &&
  strOrFalsy (getOpt (getOpt x "user_sentiment") "sentiment") &&
  strOrFalsy (getOpt (getOpt x "bot_tone") "tone") &&
  strOrFalsy (getOpt x "overall_latency_classification")

/-- Total number of tallied observations in one counter map. -/
def sumCounts (m : List (String × Nat)) : Nat := (m.map (fun kv => kv.2)).sum

/-- An analysis record in which every factor takes its maximum mapping and
no penalty applies. -/
def allMaxAnalysis : JSVal := vObj [
  ("issue_status", vObj [("status", vStr "resolved")]),
  ("human_escalation", vObj [("is_escalated", vStr "no")]),
  ("user_experience", vObj [("experience_level", vNum 5)]),
  ("is_chat_completed", vStr "yes"),
  ("response_quality", vObj [("overall_quality_score", vStr "excellent"),
    ("is_clear", vStr "yes"), ("is_concise", vStr "yes"),
    ("is_easy_to_understand", vStr "yes"), ("is_relevant", vStr "yes")]),
  ("accuracy_level", vStr "correct"),
  ("user_sentiment", vObj [("sentiment", vStr "positive")]),
  ("user_effort", vObj [("effort_level", vNum 1)]),
  ("bot_tone", vObj [("tone", vStr "professional")])]

/-- The breakdown produced for `allMaxAnalysis`: the ten weighted factor
contributions 25+20+15+10+8+7+5+5+3+2 and a zero penalty. -/
def allMaxBreakdown : Breakdown := ⟨25, 20, 15, 10, 8, 7, 5, 5, 3, 2, 0⟩

/-- A mixed-case analysis record used to witness idempotence. -/
def mixedCaseAnalysis : JSVal := vObj [
  ("accuracy_level", vStr "Correct"),
  ("user_sentiment", vObj [("sentiment", vStr "Positive")])]

/-- The all-zero breakdown: every factor absent. -/
def zeroBreakdown : Breakdown := ⟨0, 0, 0, 0, 0, 0, 0, 0, 0, 0, 0⟩

/-- A record whose targeted enum paths hold (mixed-case) strings. -/
def safeEnumAnalysis : JSVal := vObj [
  ("bot_tone", vObj [("tone", vStr "Friendly")]),
  ("issue_status", vObj [("status", vStr "Resolved")])]

/-- Discriminates the scorer's two result shapes: a bare number versus a
`{ totalScore, breakdown }` record. -/
def ScoreOut.isBareNum : ScoreOut → Bool
  | .num _ => true
  | .result _ _ => false

/-- One aggregated result whose analysis has only a user sentiment. -/
def sentimentSession (s : String) : JSVal :=
  vObj [("analysis", vObj [("user_sentiment", vObj [("sentiment", vStr s)])])]

/-- Eight sessions split 3/3/2 across three sentiments: the rounded
percentages are 38, 38 and 25. -/
def sentimentBatch8 : List JSVal :=
  [sentimentSession "positive", sentimentSession "positive", sentimentSession "positive",
   sentimentSession "negative", sentimentSession "negative", sentimentSession "negative",
   sentimentSession "neutral", sentimentSession "neutral"]

/-- The aggregate record for `sentimentBatch8`. -/
def sentimentStats8 : AggregateStats :=
  { average_chat_completion_rate := [("yes", 0), ("no", 0)]
    average_user_sentiment_distribution := [("positive", 38), ("negative", 38), ("neutral", 25)]
    average_bot_tone_distribution := []
    average_anydesk_required := [("true", 0), ("false", 0)]
    average_user_experience_level := 0
    average_user_effort_level := 0
    average_response_accuracy := []
    average_issue_resolution_rate := [("resolved", 0), ("unresolved", 0)]
    average_human_escalation_rate := [("yes", 0), ("no", 0)] }

/-- The raw external analysis used in the batch scenario. -/
def rawResolved : JSVal := vObj [("issue_status", vObj [("status", vStr "Resolved")])]

/-- Its normalized form. -/
def resolvedOnlyAnalysis : JSVal := vObj [("issue_status", vObj [("status", vStr "resolved")])]

/-- Breakdown for an analysis whose only factor is a resolved issue. -/
def resolvedBreakdown : Breakdown := ⟨25, 0, 0, 0, 0, 0, 0, 0, 0, 0, 0⟩

/-- The external analysis oracle of the scenario: the call for session
"s2" times out, the others return a resolved-issue analysis. -/
def timeoutOracle (v : JSVal) : Except String JSVal :=
  match v with
  | vStr s =>
      if s = "s2" then .error "timeout of 300000ms exceeded" else .ok rawResolved
  | _ => .error "invalid session id"

/-- A stored session exposing its identifier as `_id`. -/
def mkSession (id : String) : JSVal := vObj [("_id", vStr id)]

/-- The 3-session batch of the scenario. -/
def scenarioSessions : List JSVal := [mkSession "s1", mkSession "s2", mkSession "s3"]

/-! ## Basic lemmas: the object model and lower-casing -/

theorem char_toNat_ofNat (n : Nat) (h : n < 55296) : (Char.ofNat n).toNat = n := by
  unfold Char.ofNat
  split
  · rfl
  · rename_i hn
    exact absurd (Or.inl h) hn

theorem lowerChar_idem (c : Char) : lowerChar (lowerChar c) = lowerChar c := by
  unfold lowerChar
  by_cases h : 65 ≤ c.toNat ∧ c.toNat ≤ 90
  · rw [if_pos h]
    have h2 : (Char.ofNat (c.toNat + 32)).toNat = c.toNat + 32 :=
      char_toNat_ofNat _ (by omega)
    rw [h2, if_neg (by omega)]
  · rw [if_neg h, if_neg h]

theorem jsToLower_idem (s : String) : jsToLower (jsToLower s) = jsToLower s := by
  unfold jsToLower
  simp only [List.map_map]
  exact congrArg String.mk (List.map_congr_left fun c _ => lowerChar_idem c)

theorem jsToLower_ne_empty {s : String} (h : s ≠ "") : jsToLower s ≠ "" := by
  intro he
  apply h
  have hd : (jsToLower s).data = s.data.map lowerChar := rfl
  have : s.data.map lowerChar = [] := by rw [← hd, he]
  cases s with
  | mk l => cases l with
    | nil => rfl
    | cons c cs => simp at this

namespace JSVal

theorem getF_setF_self (fs : List (String × JSVal)) (k : String) (v : JSVal) :
    getF (setF fs k v) k = v := by
  induction fs with
  | nil => simp [setF, getF]
  | cons kv rest ih =>
      obtain ⟨k1, w⟩ := kv
      by_cases h : k1 = k
      · simp [setF, h, getF]
      · simp [setF, h, getF, ih]

theorem getF_setF_ne {k k2 : String} (fs : List (String × JSVal)) (v : JSVal)
    (h : k2 ≠ k) : getF (setF fs k v) k2 = getF fs k2 := by
  induction fs with
  | nil => simp [setF, getF, Ne.symm h]
  | cons kv rest ih =>
      obtain ⟨k1, w⟩ := kv
      by_cases h1 : k1 = k
      · subst h1
        simp [setF, getF, Ne.symm h]
      · by_cases h2 : k1 = k2 <;> simp [setF, getF, h, h1, h2, ih]

theorem setF_of_getF {fs : List (String × JSVal)} {k : String} {v : JSVal}
    (h : getF fs k = v) (hv : v ≠ vUndef) : setF fs k v = fs := by
  induction fs with
  | nil => exact absurd h.symm hv
  | cons kv rest ih =>
      obtain ⟨k1, w⟩ := kv
      by_cases h1 : k1 = k
      · subst h1
        simp [getF] at h
        simp [setF, h]
      · simp [getF, h1] at h
        simp [setF, h1, ih h]

end JSVal

/-! ## Normalizer lemmas: step locality and fixed points -/

theorem lowerScalarF_getF_ne {k2 k : String} (fs : List (String × JSVal)) (h : k2 ≠ k) :
    getF (lowerScalarF fs k) k2 = getF fs k2 := by
  cases hv : getF fs k <;> simp [lowerScalarF, hv]
  rename_i s
  by_cases hs : s = "" <;> simp [hs, getF_setF_ne _ _ h]

theorem lowerScalarF_fixed (fs : List (String × JSVal)) (k : String) :
    scalarFixed (getF (lowerScalarF fs k) k) := by
  intro s' hs'
  cases hv : getF fs k with
  | vStr s =>
      by_cases hs : s = ""
      · simp [lowerScalarF, hv, hs] at hs'
        exact Or.inl hs'.symm
      · simp [lowerScalarF, hv, hs, getF_setF_self] at hs'
        exact Or.inr (by rw [← hs', jsToLower_idem])
  | vNull => simp [lowerScalarF, hv] at hs'
  | vUndef => simp [lowerScalarF, hv] at hs'
  | vBool b => simp [lowerScalarF, hv] at hs'
  | vNum q => simp [lowerScalarF, hv] at hs'
  | vObj o => simp [lowerScalarF, hv] at hs'

theorem lowerScalarF_noop {fs : List (String × JSVal)} {k : String}
    (h : scalarFixed (getF fs k)) : lowerScalarF fs k = fs := by
  cases hv : getF fs k <;> simp [lowerScalarF, hv]
  rename_i s
  by_cases hs0 : s = ""
  · simp [hs0]
  · simp [hs0]
    rcases h s hv with hs | hs
    · exact absurd hs hs0
    · rw [hs]
      exact setF_of_getF hv (by simp)

theorem lowerNestedF_spec (res inp : List (String × JSVal)) (k k2 : String) :
    lowerNestedF res inp k k2 =
      match nestedStepV (getF res k) k2 with
      | .error _ => .error ()
      | .ok none => .ok (res, inp)
      | .ok (some v2) => .ok (setF res k v2, setF inp k v2) := by
  cases hv : getF res k with
  | vObj q =>
      cases hv2 : getF q k2 with
      | vStr s =>
          by_cases hs : s = "" <;>
            simp [lowerNestedF, nestedStepV, hv, hv2, hs, truthy]
      | vNull => simp [lowerNestedF, nestedStepV, hv, hv2, truthy]
      | vUndef => simp [lowerNestedF, nestedStepV, hv, hv2, truthy]
      | vBool b => cases b <;> simp [lowerNestedF, nestedStepV, hv, hv2, truthy]
      | vNum n =>
          by_cases hn : n = 0 <;>
            simp [lowerNestedF, nestedStepV, hv, hv2, hn, truthy]
      | vObj o => simp [lowerNestedF, nestedStepV, hv, hv2, truthy]
  | vNull => simp [lowerNestedF, nestedStepV, hv]
  | vUndef => simp [lowerNestedF, nestedStepV, hv]
  | vBool b => simp [lowerNestedF, nestedStepV, hv]
  | vNum n => simp [lowerNestedF, nestedStepV, hv]
  | vStr s => simp [lowerNestedF, nestedStepV, hv]

theorem lowerNestedF_frame {res inp res1 inp1 : List (String × JSVal)}
    {k k2 k' : String} (h : lowerNestedF res inp k k2 = .ok (res1, inp1))
    (hk : k' ≠ k) : getF res1 k' = getF res k' ∧ getF inp1 k' = getF inp k' := by
  rw [lowerNestedF_spec] at h
  cases hstep : nestedStepV (getF res k) k2 with
  | error e => rw [hstep] at h; cases h
  | ok o =>
      cases o with
      | none =>
          rw [hstep] at h
          simp at h
          obtain ⟨h1, h2⟩ := h
          rw [← h1, ← h2]
          exact ⟨rfl, rfl⟩
      | some v2 =>
          rw [hstep] at h
          simp at h
          obtain ⟨h1, h2⟩ := h
          rw [← h1, ← h2, getF_setF_ne _ _ hk, getF_setF_ne _ _ hk]
          exact ⟨rfl, rfl⟩

theorem lowerNestedF_fixed {res inp res1 inp1 : List (String × JSVal)}
    {k k2 : String} (h : lowerNestedF res inp k k2 = .ok (res1, inp1)) :
    nestedFixed (getF res1 k) k2 := by
  rw [lowerNestedF_spec] at h
  cases hv : getF res k with
  | vObj q =>
      rw [hv] at h
      cases hv2 : getF q k2 with
      | vStr s =>
          by_cases hs : s = ""
          · simp [nestedStepV, hv2, hs] at h
            obtain ⟨h1, _⟩ := h
            rw [← h1, hv, nestedFixed]
            simp [getOpt, hv2, hs, truthy]
          · simp [nestedStepV, hv2, hs] at h
            obtain ⟨h1, _⟩ := h
            rw [← h1, getF_setF_self, nestedFixed]
            refine Or.inr ⟨jsToLower s, ?_, jsToLower_idem s⟩
            simp [getOpt, getF_setF_self]
      | vNull =>
          simp [nestedStepV, hv2, truthy] at h
          obtain ⟨h1, _⟩ := h
          rw [← h1, hv, nestedFixed]
          simp [getOpt, hv2, truthy]
      | vUndef =>
          simp [nestedStepV, hv2, truthy] at h
          obtain ⟨h1, _⟩ := h
          rw [← h1, hv, nestedFixed]
          simp [getOpt, hv2, truthy]
      | vBool b =>
          cases b
          · simp [nestedStepV, hv2, truthy] at h
            obtain ⟨h1, _⟩ := h
            rw [← h1, hv, nestedFixed]
            simp [getOpt, hv2, truthy]
          · simp [nestedStepV, hv2, truthy] at h
      | vNum n =>
          by_cases hn : n = 0
          · simp [nestedStepV, hv2, hn, truthy] at h
            obtain ⟨h1, _⟩ := h
            rw [← h1, hv, nestedFixed]
            simp [getOpt, hv2, hn, truthy]
          · simp [nestedStepV, hv2, hn, truthy] at h
      | vObj o => simp [nestedStepV, hv2, truthy] at h
  | vNull =>
      rw [hv] at h; simp [nestedStepV] at h
      obtain ⟨h1, _⟩ := h
      rw [← h1, hv, nestedFixed]; simp [getOpt, truthy]
  | vUndef =>
      rw [hv] at h; simp [nestedStepV] at h
      obtain ⟨h1, _⟩ := h
      rw [← h1, hv, nestedFixed]; simp [getOpt, truthy]
  | vBool b =>
      rw [hv] at h; simp [nestedStepV] at h
      obtain ⟨h1, _⟩ := h
      rw [← h1, hv, nestedFixed]; simp [getOpt, truthy]
  | vNum n =>
      rw [hv] at h; simp [nestedStepV] at h
      obtain ⟨h1, _⟩ := h
      rw [← h1, hv, nestedFixed]; simp [getOpt, truthy]
  | vStr s =>
      rw [hv] at h; simp [nestedStepV] at h
      obtain ⟨h1, _⟩ := h
      rw [← h1, hv, nestedFixed]; simp [getOpt, truthy]

theorem lowerNestedF_noop {fs : List (String × JSVal)} {k k2 : String}
    (h : nestedFixed (getF fs k) k2) : lowerNestedF fs fs k k2 = .ok (fs, fs) := by
  rw [lowerNestedF_spec]
  cases hv : getF fs k with
  | vObj q =>
      rw [hv, nestedFixed] at h
      cases hv2 : getF q k2 with
      | vStr s =>
          by_cases hs : s = ""
          · simp [nestedStepV, hv2, hs]
          · rcases h with h | ⟨s', hs', hfix⟩
            · rw [getOpt, hv2, truthy] at h
              simp at h
              exact absurd h hs
            · rw [getOpt, hv2] at hs'
              injection hs' with he
              subst he
              simp only [nestedStepV, hv2, hs, ite_not, if_neg hs]
              rw [hfix, setF_of_getF hv2 (by simp)]
              simp [setF_of_getF hv (by simp : vObj q ≠ vUndef)]
      | vNull => simp [nestedStepV, hv2, truthy]
      | vUndef => simp [nestedStepV, hv2, truthy]
      | vBool b =>
          cases b
          · simp [nestedStepV, hv2, truthy]
          · rcases h with h | ⟨s', hs', _⟩
            · rw [getOpt, hv2, truthy] at h; simp at h
            · rw [getOpt, hv2] at hs'; cases hs'
      | vNum n =>
          by_cases hn : n = 0
          · simp [nestedStepV, hv2, hn, truthy]
          · rcases h with h | ⟨s', hs', _⟩
            · rw [getOpt, hv2, truthy] at h; simp at h; exact absurd h hn
            · rw [getOpt, hv2] at hs'; cases hs'
      | vObj o =>
          rcases h with h | ⟨s', hs', _⟩
          · rw [getOpt, hv2, truthy] at h; simp at h
          · rw [getOpt, hv2] at hs'; cases hs'
  | vNull => simp [nestedStepV, hv]
  | vUndef => simp [nestedStepV, hv]
  | vBool b => simp [nestedStepV, hv]
  | vNum n => simp [nestedStepV, hv]
  | vStr s => simp [nestedStepV, hv]

theorem lowerNestedF_agree {res inp res1 inp1 : List (String × JSVal)}
    {k k2 : String} (h : lowerNestedF res inp k k2 = .ok (res1, inp1))
    (hag : getF inp k = getF res k) : getF inp1 k = getF res1 k := by
  rw [lowerNestedF_spec] at h
  cases hstep : nestedStepV (getF res k) k2 with
  | error e => rw [hstep] at h; cases h
  | ok o =>
      cases o with
      | none =>
          rw [hstep] at h; simp at h
          obtain ⟨h1, h2⟩ := h
          rw [← h1, ← h2, hag]
      | some v2 =>
          rw [hstep] at h; simp at h
          obtain ⟨h1, h2⟩ := h
          rw [← h1, ← h2, getF_setF_self, getF_setF_self]

theorem lowerNestedF_ok_of_safe (res inp : List (String × JSVal)) (k k2 : String)
    (h : (getOpt (getF res k) k2).truthy = false ∨
         ∃ s, getOpt (getF res k) k2 = vStr s) :
    ∃ o, lowerNestedF res inp k k2 = .ok o := by
  rw [lowerNestedF_spec]
  cases hv : getF res k with
  | vObj q =>
      rw [hv] at h
      cases hv2 : getF q k2 with
      | vStr s => by_cases hs : s = "" <;> simp [nestedStepV, hv2, hs]
      | vNull => simp [nestedStepV, hv2, truthy]
      | vUndef => simp [nestedStepV, hv2, truthy]
      | vBool b =>
          cases b
          · simp [nestedStepV, hv2, truthy]
          · rcases h with h | ⟨s, hs⟩
            · rw [getOpt, hv2, truthy] at h; simp at h
            · rw [getOpt, hv2] at hs; cases hs
      | vNum n =>
          by_cases hn : n = 0
          · simp [nestedStepV, hv2, hn, truthy]
          · rcases h with h | ⟨s, hs⟩
            · rw [getOpt, hv2, truthy] at h; simp at h; exact absurd h hn
            · rw [getOpt, hv2] at hs; cases hs
      | vObj o =>
          rcases h with h | ⟨s, hs⟩
          · rw [getOpt, hv2, truthy] at h; simp at h
          · rw [getOpt, hv2] at hs; cases hs
  | vNull => simp [nestedStepV, hv]
  | vUndef => simp [nestedStepV, hv]
  | vBool b => simp [nestedStepV, hv]
  | vNum n => simp [nestedStepV, hv]
  | vStr s => simp [nestedStepV, hv]

theorem lowerRespQualityF_frame (res inp : List (String × JSVal)) (k' : String)
    (hk : k' ≠ "response_quality") :
    getF (lowerRespQualityF res inp).1 k' = getF res k' ∧
    getF (lowerRespQualityF res inp).2 k' = getF inp k' := by
  cases hv : getF res "response_quality" <;> simp [lowerRespQualityF, hv]
  exact ⟨getF_setF_ne _ _ hk, getF_setF_ne _ _ hk⟩

theorem lowerRespQualityF_fixed (res inp : List (String × JSVal)) :
    rqFixed (getF (lowerRespQualityF res inp).1 "response_quality") := by
  cases hv : getF res "response_quality" with
  | vObj q =>
      intro q' hq'
      simp [lowerRespQualityF, hv, getF_setF_self] at hq'
      rw [← hq']
      refine ⟨?_, ?_, ?_, ?_, ?_⟩
      · rw [lowerScalarF_getF_ne _ (by decide), lowerScalarF_getF_ne _ (by decide),
            lowerScalarF_getF_ne _ (by decide), lowerScalarF_getF_ne _ (by decide)]
        exact lowerScalarF_fixed q "is_clear"
      · rw [lowerScalarF_getF_ne _ (by decide), lowerScalarF_getF_ne _ (by decide),
            lowerScalarF_getF_ne _ (by decide)]
        exact lowerScalarF_fixed _ "is_concise"
      · rw [lowerScalarF_getF_ne _ (by decide), lowerScalarF_getF_ne _ (by decide)]
        exact lowerScalarF_fixed _ "is_easy_to_understand"
      · rw [lowerScalarF_getF_ne _ (by decide)]
        exact lowerScalarF_fixed _ "is_relevant"
      · exact lowerScalarF_fixed _ "overall_quality_score"
  | vNull => intro q' hq'; simp [lowerRespQualityF, hv] at hq'
  | vUndef => intro q' hq'; simp [lowerRespQualityF, hv] at hq'
  | vBool b => intro q' hq'; simp [lowerRespQualityF, hv] at hq'
  | vNum n => intro q' hq'; simp [lowerRespQualityF, hv] at hq'
  | vStr s => intro q' hq'; simp [lowerRespQualityF, hv] at hq'

theorem lowerRespQualityF_noop {fs : List (String × JSVal)}
    (h : rqFixed (getF fs "response_quality")) :
    lowerRespQualityF fs fs = (fs, fs) := by
  cases hv : getF fs "response_quality" with
  | vObj q =>
      obtain ⟨h1, h2, h3, h4, h5⟩ := h q hv
      simp only [lowerRespQualityF, hv]
      rw [lowerScalarF_noop h1, lowerScalarF_noop h2, lowerScalarF_noop h3,
          lowerScalarF_noop h4, lowerScalarF_noop h5, setF_of_getF hv (by simp)]
  | vNull => simp [lowerRespQualityF, hv]
  | vUndef => simp [lowerRespQualityF, hv]
  | vBool b => simp [lowerRespQualityF, hv]
  | vNum n => simp [lowerRespQualityF, hv]
  | vStr s => simp [lowerRespQualityF, hv]

theorem lowerRespQualityF_agree (res inp : List (String × JSVal))
    (hag : getF inp "response_quality" = getF res "response_quality") :
    getF (lowerRespQualityF res inp).2 "response_quality"
      = getF (lowerRespQualityF res inp).1 "response_quality" := by
  cases hv : getF res "response_quality" <;>
    simp [lowerRespQualityF, hv, getF_setF_self] <;>
    rw [hag, hv]

theorem except_bind_ok {α β : Type} {e : Except Unit α} {f : α → Except Unit β}
    {b : β} (h : (e >>= f) = .ok b) : ∃ a, e = .ok a ∧ f a = .ok b := by
  cases e with
  | error u => simp [Bind.bind, Except.bind] at h
  | ok a => exact ⟨a, rfl, h⟩

theorem except_ok_bind {α β : Type} (a : α) (f : α → Except Unit β) :
    (Except.ok a >>= f) = f a := rfl

/-- Inversion of the normalizer pipeline: names for every intermediate
state of the statement sequence. -/
theorem normalizeFields_inv {fields res inp : List (String × JSVal)}
    (h : normalizeFields fields = .ok (res, inp)) :
    ∃ r4 i4 r5 i5 r6 i6 r7 i7 r8 i8 r9 i9,
      lowerNestedF
        (lowerScalarF (lowerScalarF (lowerScalarF fields "accuracy_level")
          "is_chat_completed") "overall_latency_classification")
        fields "human_escalation" "is_escalated" = .ok (r4, i4) ∧
      lowerNestedF r4 i4 "issue_status" "status" = .ok (r5, i5) ∧
      lowerNestedF r5 i5 "escalation_necessity" "was_escalation_necessary" = .ok (r6, i6) ∧
      lowerNestedF r6 i6 "bot_tone" "tone" = .ok (r7, i7) ∧
      lowerNestedF r7 i7 "user_sentiment" "sentiment" = .ok (r8, i8) ∧
      lowerRespQualityF r8 i8 = (r9, i9) ∧
      lowerNestedF r9 i9 "conversation_quality" "quality" = .ok (res, inp) := by
  rw [normalizeFields] at h
  obtain ⟨⟨r4, i4⟩, h4, h⟩ := except_bind_ok h
  obtain ⟨⟨r5, i5⟩, h5, h⟩ := except_bind_ok h
  obtain ⟨⟨r6, i6⟩, h6, h⟩ := except_bind_ok h
  obtain ⟨⟨r7, i7⟩, h7, h⟩ := except_bind_ok h
  obtain ⟨⟨r8, i8⟩, h8, h⟩ := except_bind_ok h
  refine ⟨r4, i4, r5, i5, r6, i6, r7, i7, r8, i8,
    (lowerRespQualityF r8 i8).1, (lowerRespQualityF r8 i8).2,
    h4, h5, h6, h7, h8, rfl, ?_⟩
  obtain ⟨⟨ra, ia⟩, ha, h⟩ := except_bind_ok h
  simp at h
  obtain ⟨h1, h2⟩ := h
  rw [h1, h2] at ha
  exact ha

/-- Core of the idempotence property: the object produced by a successful
normalization is itself normalized, and renormalizing it no longer touches
the (now lower-cased) input either. -/
theorem normalizeFields_idem {fields res inp : List (String × JSVal)}
    (h : normalizeFields fields = .ok (res, inp)) :
    normalizeFields res = .ok (res, res) := by
  obtain ⟨r4, i4, r5, i5, r6, i6, r7, i7, r8, i8, r9, i9,
    h4, h5, h6, h7, h8, hrq, h10⟩ := normalizeFields_inv h
  have frq : ∀ k' : String, k' ≠ "response_quality" → getF r9 k' = getF r8 k' := by
    intro k' hk
    have e := (lowerRespQualityF_frame r8 i8 _ hk).1
    rwa [hrq] at e
  have hfix_acc : scalarFixed (getF res "accuracy_level") := by
    rw [(lowerNestedF_frame h10 (by decide)).1, frq _ (by decide),
        (lowerNestedF_frame h8 (by decide)).1, (lowerNestedF_frame h7 (by decide)).1,
        (lowerNestedF_frame h6 (by decide)).1, (lowerNestedF_frame h5 (by decide)).1,
        (lowerNestedF_frame h4 (by decide)).1,
        lowerScalarF_getF_ne _ (by decide), lowerScalarF_getF_ne _ (by decide)]
    exact lowerScalarF_fixed fields "accuracy_level"
  have hfix_chat : scalarFixed (getF res "is_chat_completed") := by
    rw [(lowerNestedF_frame h10 (by decide)).1, frq _ (by decide),
        (lowerNestedF_frame h8 (by decide)).1, (lowerNestedF_frame h7 (by decide)).1,
        (lowerNestedF_frame h6 (by decide)).1, (lowerNestedF_frame h5 (by decide)).1,
        (lowerNestedF_frame h4 (by decide)).1, lowerScalarF_getF_ne _ (by decide)]
    exact lowerScalarF_fixed _ "is_chat_completed"
  have hfix_lat : scalarFixed (getF res "overall_latency_classification") := by
    rw [(lowerNestedF_frame h10 (by decide)).1, frq _ (by decide),
        (lowerNestedF_frame h8 (by decide)).1, (lowerNestedF_frame h7 (by decide)).1,
        (lowerNestedF_frame h6 (by decide)).1, (lowerNestedF_frame h5 (by decide)).1,
        (lowerNestedF_frame h4 (by decide)).1]
    exact lowerScalarF_fixed _ "overall_latency_classification"
  have hfix_he : nestedFixed (getF res "human_escalation") "is_escalated" := by
    rw [(lowerNestedF_frame h10 (by decide)).1, frq _ (by decide),
        (lowerNestedF_frame h8 (by decide)).1, (lowerNestedF_frame h7 (by decide)).1,
        (lowerNestedF_frame h6 (by decide)).1, (lowerNestedF_frame h5 (by decide)).1]
    exact lowerNestedF_fixed h4
  have hfix_is : nestedFixed (getF res "issue_status") "status" := by
    rw [(lowerNestedF_frame h10 (by decide)).1, frq _ (by decide),
        (lowerNestedF_frame h8 (by decide)).1, (lowerNestedF_frame h7 (by decide)).1,
        (lowerNestedF_frame h6 (by decide)).1]
    exact lowerNestedF_fixed h5
  have hfix_en : nestedFixed (getF res "escalation_necessity") "was_escalation_necessary" := by
    rw [(lowerNestedF_frame h10 (by decide)).1, frq _ (by decide),
        (lowerNestedF_frame h8 (by decide)).1, (lowerNestedF_frame h7 (by decide)).1]
    exact lowerNestedF_fixed h6
  have hfix_bt : nestedFixed (getF res "bot_tone") "tone" := by
    rw [(lowerNestedF_frame h10 (by decide)).1, frq _ (by decide),
        (lowerNestedF_frame h8 (by decide)).1]
    exact lowerNestedF_fixed h7
  have hfix_us : nestedFixed (getF res "user_sentiment") "sentiment" := by
    rw [(lowerNestedF_frame h10 (by decide)).1, frq _ (by decide)]
    exact lowerNestedF_fixed h8
  have hfix_rq : rqFixed (getF res "response_quality") := by
    rw [(lowerNestedF_frame h10 (by decide)).1]
    have e := lowerRespQualityF_fixed r8 i8
    rwa [hrq] at e
  have hfix_cq : nestedFixed (getF res "conversation_quality") "quality" :=
    lowerNestedF_fixed h10
  simp only [normalizeFields, lowerScalarF_noop hfix_acc, lowerScalarF_noop hfix_chat,
    lowerScalarF_noop hfix_lat, lowerNestedF_noop hfix_he, except_ok_bind,
    lowerNestedF_noop hfix_is, lowerNestedF_noop hfix_en, lowerNestedF_noop hfix_bt,
    lowerNestedF_noop hfix_us, lowerRespQualityF_noop hfix_rq,
    lowerNestedF_noop hfix_cq]

/-- How a successful normalization leaves the caller's object: every
top-level field outside the seven nested groups is untouched (in
particular the three top-level enum strings, which are re-assigned only on
the shallow copy), while at the seven nested group keys the caller's
object now holds exactly the same (possibly mutated) objects as the
returned value. -/
theorem normalizeFields_post {fields res inp : List (String × JSVal)}
    (h : normalizeFields fields = .ok (res, inp)) :
    (∀ k : String, k ∉ nestedGroupKeys → getF inp k = getF fields k) ∧
    (∀ k ∈ nestedGroupKeys, getF inp k = getF res k) := by
  obtain ⟨r4, i4, r5, i5, r6, i6, r7, i7, r8, i8, r9, i9,
    h4, h5, h6, h7, h8, hrq, h10⟩ := normalizeFields_inv h
  have step : ∀ (r i r2 i2 : List (String × JSVal)) (k k2 K : String),
      lowerNestedF r i k k2 = .ok (r2, i2) →
      getF i K = getF r K → getF i2 K = getF r2 K := by
    intro r i r2 i2 k k2 K hs hag
    by_cases hK : K = k
    · subst hK; exact lowerNestedF_agree hs hag
    · rw [(lowerNestedF_frame hs hK).1, (lowerNestedF_frame hs hK).2]; exact hag
  have steprq : ∀ K : String, getF i8 K = getF r8 K → getF i9 K = getF r9 K := by
    intro K hag
    by_cases hK : K = "response_quality"
    · subst hK
      have e := lowerRespQualityF_agree r8 i8 hag
      rwa [hrq] at e
    · have e := lowerRespQualityF_frame r8 i8 _ hK
      rw [hrq] at e
      rw [e.1, e.2]
      exact hag
  constructor
  · intro k hk
    simp only [nestedGroupKeys, List.mem_cons, List.not_mem_nil, or_false,
      not_or] at hk
    obtain ⟨n1, n2, n3, n4, n5, n6, n7⟩ := hk
    have erq : getF i9 k = getF i8 k := by
      have e := (lowerRespQualityF_frame r8 i8 _ n6).2
      rwa [hrq] at e
    rw [(lowerNestedF_frame h10 n7).2, erq, (lowerNestedF_frame h8 n5).2,
        (lowerNestedF_frame h7 n4).2, (lowerNestedF_frame h6 n3).2,
        (lowerNestedF_frame h5 n2).2, (lowerNestedF_frame h4 n1).2]
  · intro k hk
    fin_cases hk <;>
    · refine step _ _ _ _ _ _ _ h10
        (steprq _ (step _ _ _ _ _ _ _ h8 (step _ _ _ _ _ _ _ h7
          (step _ _ _ _ _ _ _ h6 (step _ _ _ _ _ _ _ h5
            (step _ _ _ _ _ _ _ h4 ?_))))))
      rw [lowerScalarF_getF_ne _ (by decide), lowerScalarF_getF_ne _ (by decide),
          lowerScalarF_getF_ne _ (by decide)]

theorem strOrFalsy_cases {v : JSVal} (h : strOrFalsy v = true) :
    v.truthy = false ∨ ∃ s, v = vStr s := by
  cases v with
  | vStr s => exact Or.inr ⟨s, rfl⟩
  | vNull => exact Or.inl rfl
  | vUndef => exact Or.inl rfl
  | vBool b => simp [strOrFalsy, truthy] at h; simp [truthy, h]
  | vNum n => simp [strOrFalsy, truthy] at h; simp [truthy, h]
  | vObj o => simp [strOrFalsy, truthy] at h

theorem normalizeFields_ok_of_safe {fields : List (String × JSVal)}
    (hsafe : normalizeSafe (vObj fields) = true) :
    ∃ rp, normalizeFields fields = .ok rp := by
  rw [normalizeSafe] at hsafe
  simp only [Bool.and_eq_true] at hsafe
  obtain ⟨⟨⟨⟨⟨hhe, his⟩, hen⟩, hbt⟩, hus⟩, hcq⟩ := hsafe
  have g : ∀ K : String, K ≠ "accuracy_level" → K ≠ "is_chat_completed" →
      K ≠ "overall_latency_classification" →
      getF (lowerScalarF (lowerScalarF (lowerScalarF fields "accuracy_level")
        "is_chat_completed") "overall_latency_classification") K = getF fields K := by
    intro K n1 n2 n3
    rw [lowerScalarF_getF_ne _ n3, lowerScalarF_getF_ne _ n2, lowerScalarF_getF_ne _ n1]
  have pre : ∀ (r : List (String × JSVal)) (k k2 : String),
      getF r k = getF fields k →
      strOrFalsy (getOpt (getOpt (vObj fields) k) k2) = true →
      (getOpt (getF r k) k2).truthy = false ∨ ∃ s, getOpt (getF r k) k2 = vStr s := by
    intro r k k2 he hs
    rw [he]
    exact strOrFalsy_cases hs
  obtain ⟨⟨r4, i4⟩, h4⟩ := lowerNestedF_ok_of_safe _ fields "human_escalation" "is_escalated"
    (pre _ _ "is_escalated" (g _ (by decide) (by decide) (by decide)) hhe)
  obtain ⟨⟨r5, i5⟩, h5⟩ := lowerNestedF_ok_of_safe r4 i4 "issue_status" "status"
    (pre _ _ "status"
      ((lowerNestedF_frame h4 (by decide)).1.trans (g _ (by decide) (by decide) (by decide))) his)
  obtain ⟨⟨r6, i6⟩, h6⟩ := lowerNestedF_ok_of_safe r5 i5
    "escalation_necessity" "was_escalation_necessary"
    (pre _ _ "was_escalation_necessary"
      ((lowerNestedF_frame h5 (by decide)).1.trans
        ((lowerNestedF_frame h4 (by decide)).1.trans
          (g _ (by decide) (by decide) (by decide)))) hen)
  obtain ⟨⟨r7, i7⟩, h7⟩ := lowerNestedF_ok_of_safe r6 i6 "bot_tone" "tone"
    (pre _ _ "tone"
      ((lowerNestedF_frame h6 (by decide)).1.trans
        ((lowerNestedF_frame h5 (by decide)).1.trans
          ((lowerNestedF_frame h4 (by decide)).1.trans
            (g _ (by decide) (by decide) (by decide))))) hbt)
  obtain ⟨⟨r8, i8⟩, h8⟩ := lowerNestedF_ok_of_safe r7 i7 "user_sentiment" "sentiment"
    (pre _ _ "sentiment"
      ((lowerNestedF_frame h7 (by decide)).1.trans
        ((lowerNestedF_frame h6 (by decide)).1.trans
          ((lowerNestedF_frame h5 (by decide)).1.trans
            ((lowerNestedF_frame h4 (by decide)).1.trans
              (g _ (by decide) (by decide) (by decide)))))) hus)
  rcases hsplit : lowerRespQualityF r8 i8 with ⟨r9, i9⟩
  have e9 : getF r9 "conversation_quality" = getF r8 "conversation_quality" := by
    have e := (lowerRespQualityF_frame r8 i8 "conversation_quality" (by decide)).1
    rwa [hsplit] at e
  obtain ⟨o10, h10⟩ := lowerNestedF_ok_of_safe r9 i9 "conversation_quality" "quality"
    (pre _ _ "quality"
      (e9.trans ((lowerNestedF_frame h8 (by decide)).1.trans
        ((lowerNestedF_frame h7 (by decide)).1.trans
          ((lowerNestedF_frame h6 (by decide)).1.trans
            ((lowerNestedF_frame h5 (by decide)).1.trans
              ((lowerNestedF_frame h4 (by decide)).1.trans
                (g _ (by decide) (by decide) (by decide)))))))) hcq)
  refine ⟨o10, ?_⟩
  rw [normalizeFields]
  rw [h4, except_ok_bind]
  simp only [h5, h6, h7, h8, hsplit, h10, except_ok_bind]

/-! ## Scorer lemmas -/

/-- The common factor shape: truthiness guard, `.toLowerCase()`, then a
pure mapping.  It cannot throw when the guarded value is a string or
falsy. -/
theorem enumFactor_ok (v : JSVal) (f : String → ℚ) (z : ℚ)
    (h : strOrFalsy v = true) :
    ∃ q, (if v.truthy then (jsToLowerCall v) >>= (fun s => Except.ok (f s))
          else Except.ok z) = .ok q := by
  by_cases ht : v.truthy = true
  · rcases strOrFalsy_cases h with hf | ⟨s, rfl⟩
    · rw [ht] at hf; cases hf
    · exact ⟨f (jsToLower s), by rw [if_pos ht]; rfl⟩
  · exact ⟨z, by rw [if_neg ht]⟩

theorem componentPoints_ok (rq : JSVal) (c : String)
    (h : strOrFalsy (getOpt rq c) = true) : ∃ q, componentPoints rq c = .ok q := by
  rw [componentPoints]
  exact enumFactor_ok _ _ _ h

theorem componentsRaw_ok {x : JSVal}
    (h1 : strOrFalsy (getOpt (getOpt x "response_quality") "is_clear") = true)
    (h2 : strOrFalsy (getOpt (getOpt x "response_quality") "is_concise") = true)
    (h3 : strOrFalsy (getOpt (getOpt x "response_quality") "is_easy_to_understand") = true)
    (h4 : strOrFalsy (getOpt (getOpt x "response_quality") "is_relevant") = true) :
    ∃ q, componentsRaw x = .ok q := by
  rw [componentsRaw]
  by_cases ht : (getOpt x "response_quality").truthy = true
  · rw [if_pos ht]
    obtain ⟨q1, e1⟩ := componentPoints_ok _ _ h1
    obtain ⟨q2, e2⟩ := componentPoints_ok _ _ h2
    obtain ⟨q3, e3⟩ := componentPoints_ok _ _ h3
    obtain ⟨q4, e4⟩ := componentPoints_ok _ _ h4
    exact ⟨(q1 + q2 + q3 + q4) / 4, by rw [e1, except_ok_bind, e2, except_ok_bind,
      e3, except_ok_bind, e4, except_ok_bind]⟩
  · exact ⟨0, by rw [if_neg ht]⟩

theorem penaltiesRaw_ok {x : JSVal}
    (h : strOrFalsy (getOpt x "overall_latency_classification") = true) :
    ∃ q, penaltiesRaw x = .ok q := by
  rw [penaltiesRaw]
  exact enumFactor_ok _ _ _ h

theorem calculateSessionScore_ok_of_safe {x : JSVal} (h : scoreSafe x = true) :
    (calculateSessionScore x).isOk = true := by
  rw [scoreSafe] at h
  simp only [Bool.and_eq_true] at h
  obtain ⟨⟨⟨⟨⟨⟨⟨⟨⟨⟨⟨his, hhe⟩, hcc⟩, hoq⟩, hac⟩, hc1⟩, hc2⟩, hc3⟩, hc4⟩, hus⟩, hbt⟩, hlat⟩ := h
  by_cases ht : x.truthy = true
  · obtain ⟨q1, e1⟩ : ∃ q, issueResolutionRaw x = .ok q := by
      rw [issueResolutionRaw]; exact enumFactor_ok _ _ _ his
    obtain ⟨q2, e2⟩ : ∃ q, escalationRaw x = .ok q := by
      rw [escalationRaw]; exact enumFactor_ok _ _ _ hhe
    obtain ⟨q4, e4⟩ : ∃ q, completionRaw x = .ok q := by
      rw [completionRaw]; exact enumFactor_ok _ _ _ hcc
    obtain ⟨q5, e5⟩ : ∃ q, responseQualityRaw x = .ok q := by
      rw [responseQualityRaw]; exact enumFactor_ok _ _ _ hoq
    obtain ⟨q6, e6⟩ : ∃ q, accuracyRaw x = .ok q := by
      rw [accuracyRaw]; exact enumFactor_ok _ _ _ hac
    obtain ⟨q7, e7⟩ := componentsRaw_ok hc1 hc2 hc3 hc4
    obtain ⟨q8, e8⟩ : ∃ q, sentimentRaw x = .ok q := by
      rw [sentimentRaw]; exact enumFactor_ok _ _ _ hus
    obtain ⟨q10, e10⟩ : ∃ q, botToneRaw x = .ok q := by
      rw [botToneRaw]; exact enumFactor_ok _ _ _ hbt
    obtain ⟨qp, ep⟩ := penaltiesRaw_ok hlat
    rw [calculateSessionScore, if_pos ht]
    simp only [e1, e2, e4, e5, e6, e7, e8, e10, ep, except_ok_bind]
    rfl
  · rw [calculateSessionScore, if_neg ht]
    rfl

/-- Shape of every record the scorer returns: `totalScore` is the clamped,
two-decimal-rounded sum of all breakdown entries (the ten weighted factor
contributions plus the penalties entry), and is therefore never
negative. -/
theorem calculateSessionScore_result {x : JSVal} {t : ℚ} {b : Breakdown}
    (h : calculateSessionScore x = .ok (.result t b)) :
    t = max 0 ((jsMathRound ((b.issueResolution + b.escalationAvoidance +
        b.userExperience + b.chatCompletion + b.responseQuality + b.accuracy +
        b.responseComponents + b.userSentiment + b.userEffort + b.botTone +
        b.penalties) * 100) : ℚ) / 100) ∧ 0 ≤ t := by
  rw [calculateSessionScore] at h
  by_cases ht : x.truthy = true
  · rw [if_pos ht] at h
    obtain ⟨q1, e1, h⟩ := except_bind_ok h
    obtain ⟨q2, e2, h⟩ := except_bind_ok h
    obtain ⟨q4, e4, h⟩ := except_bind_ok h
    obtain ⟨q5, e5, h⟩ := except_bind_ok h
    obtain ⟨q6, e6, h⟩ := except_bind_ok h
    obtain ⟨q7, e7, h⟩ := except_bind_ok h
    obtain ⟨q8, e8, h⟩ := except_bind_ok h
    obtain ⟨q10, e10, h⟩ := except_bind_ok h
    obtain ⟨qp, ep, h⟩ := except_bind_ok h
    simp only [Except.ok.injEq, ScoreOut.result.injEq] at h
    obtain ⟨hT, hB⟩ := h
    subst hB
    constructor
    · rw [← hT]
      norm_num
    · rw [← hT]
      exact le_max_left 0 _
  · rw [if_neg ht] at h
    simp at h

/-! ## Aggregator lemmas -/

theorem sumCounts_incF (m : List (String × Nat)) (k : String) :
    sumCounts (incF m k) = sumCounts m + 1 := by
  induction m with
  | nil => simp [incF, sumCounts]
  | cons kv rest ih =>
      obtain ⟨k1, c⟩ := kv
      by_cases h : k1 = k
      · simp [incF, h, sumCounts]
        omega
      · simp [incF, h, sumCounts] at ih ⊢
        omega

theorem tallyLower_sum {m m2 : List (String × Nat)} {v : JSVal}
    (h : tallyLower m v = .ok m2) : sumCounts m2 ≤ sumCounts m + 1 := by
  rw [tallyLower] at h
  by_cases ht : v.truthy = true
  · rw [if_pos ht] at h
    obtain ⟨s, hs, h⟩ := except_bind_ok h
    simp at h
    rw [← h, sumCounts_incF]
  · rw [if_neg ht] at h
    simp at h
    rw [← h]
    omega

theorem tallySession_sums {st st2 : CountStats} {r : JSVal}
    (h : tallySession st r = .ok st2) :
    sumCounts st2.chat_completion ≤ sumCounts st.chat_completion + 1 ∧
    sumCounts st2.user_sentiment ≤ sumCounts st.user_sentiment + 1 ∧
    sumCounts st2.bot_tone ≤ sumCounts st.bot_tone + 1 ∧
    sumCounts st2.anydesk_required ≤ sumCounts st.anydesk_required + 1 ∧
    sumCounts st2.accuracy_levels ≤ sumCounts st.accuracy_levels + 1 ∧
    sumCounts st2.issue_resolution ≤ sumCounts st.issue_resolution + 1 ∧
    sumCounts st2.human_escalation ≤ sumCounts st.human_escalation + 1 := by
  rw [tallySession] at h
  obtain ⟨analysis, ha, h⟩ := except_bind_ok h
  obtain ⟨v1, hv1, h⟩ := except_bind_ok h
  obtain ⟨chat, hchat, h⟩ := except_bind_ok h
  obtain ⟨sent, hsent, h⟩ := except_bind_ok h
  obtain ⟨tone, htone, h⟩ := except_bind_ok h
  obtain ⟨anyd, hanyd, h⟩ := except_bind_ok h
  obtain ⟨expl, hexpl, h⟩ := except_bind_ok h
  obtain ⟨effl, heffl, h⟩ := except_bind_ok h
  obtain ⟨accv, haccv, h⟩ := except_bind_ok h
  obtain ⟨accl, haccl, h⟩ := except_bind_ok h
  obtain ⟨isl, hisl, h⟩ := except_bind_ok h
  obtain ⟨hel, hhel, h⟩ := except_bind_ok h
  simp only [Except.ok.injEq] at h
  subst h
  have hanyd2 : sumCounts anyd ≤ sumCounts st.anydesk_required + 1 := by
    rw [tallyAnydesk] at hanyd
    by_cases hu : (getOpt (getOpt analysis "conversation_quality")
        "is_anydesk_required").isUndef = true
    · rw [if_pos hu] at hanyd
      simp at hanyd
      rw [← hanyd]
      omega
    · rw [if_neg hu] at hanyd
      obtain ⟨s, hs, he⟩ := except_bind_ok hanyd
      simp at he
      rw [← he, sumCounts_incF]
  exact ⟨tallyLower_sum hchat, tallyLower_sum hsent, tallyLower_sum htone, hanyd2,
    tallyLower_sum haccl, tallyLower_sum hisl, tallyLower_sum hhel⟩

theorem tallyRun_sums (rs : List JSVal) : ∀ (st st2 : CountStats),
    List.foldlM tallySession st rs = .ok st2 →
    sumCounts st2.chat_completion ≤ sumCounts st.chat_completion + rs.length ∧
    sumCounts st2.user_sentiment ≤ sumCounts st.user_sentiment + rs.length ∧
    sumCounts st2.bot_tone ≤ sumCounts st.bot_tone + rs.length ∧
    sumCounts st2.anydesk_required ≤ sumCounts st.anydesk_required + rs.length ∧
    sumCounts st2.accuracy_levels ≤ sumCounts st.accuracy_levels + rs.length ∧
    sumCounts st2.issue_resolution ≤ sumCounts st.issue_resolution + rs.length ∧
    sumCounts st2.human_escalation ≤ sumCounts st.human_escalation + rs.length := by
  induction rs with
  | nil =>
      intro st st2 h
      simp [List.foldlM, pure, Except.pure] at h
      subst h
      omega
  | cons r rest ih =>
      intro st st2 h
      rw [List.foldlM] at h
      obtain ⟨stmid, hstep, hrest⟩ := except_bind_ok h
      have b1 := tallySession_sums hstep
      have b2 := ih stmid st2 hrest
      simp only [List.length_cons]
      omega

theorem sumCounts_cons (k : String) (c : Nat) (rest : List (String × Nat)) :
    sumCounts ((k, c) :: rest) = c + sumCounts rest := by simp [sumCounts]

theorem convert_sum_le_aux (N : Nat) (counts : List (String × Nat)) :
    (((convertToPercentages N counts).map (fun kv => kv.2)).sum : ℚ) ≤
      (sumCounts counts : ℚ) * 100 / N + (counts.length : ℚ) / 2 := by
  induction counts with
  | nil => simp [convertToPercentages, sumCounts]
  | cons kv rest ih =>
      obtain ⟨k, c⟩ := kv
      simp only [convertToPercentages, List.map_cons, List.sum_cons,
        List.length_cons] at ih ⊢
      rw [sumCounts_cons]
      push_cast
      have hfloor : ((jsMathRound ((c : ℚ) / N * 100) : ℤ) : ℚ) ≤ (c : ℚ) / N * 100 + 1/2 := by
        rw [jsMathRound]
        exact_mod_cast Int.floor_le ((c : ℚ) / N * 100 + 1/2)
      have e1 : (c : ℚ) / N * 100 = (c : ℚ) * 100 / N := by ring
      have e2 : ((c : ℚ) + (sumCounts rest : ℚ)) * 100 / N
          = (c : ℚ) * 100 / N + (sumCounts rest : ℚ) * 100 / N := by ring
      linarith

theorem convert_sum_le (N : Nat) (hN : 0 < N) (counts : List (String × Nat))
    (hc : sumCounts counts ≤ N) :
    (((convertToPercentages N counts).map (fun kv => kv.2)).sum : ℚ) ≤
      100 + (counts.length : ℚ) / 2 := by
  have aux := convert_sum_le_aux N counts
  have hNQ : (0 : ℚ) < N := by exact_mod_cast hN
  have h2 : (sumCounts counts : ℚ) * 100 / N ≤ 100 := by
    rw [div_le_iff₀ hNQ]
    have hcq : (sumCounts counts : ℚ) ≤ N := by exact_mod_cast hc
    nlinarith
  linarith

/-- Every reported categorical distribution of a non-empty aggregation is
`convertToPercentages` of a counter map whose total count is at most the
number of aggregated sessions (each session is counted at most once per
field), with the session count as denominator. -/
theorem calculateAggregateStats_fields {rs : List JSVal} {st : AggregateStats}
    (hne : rs ≠ []) (h : calculateAggregateStats rs = .ok st) :
    ∀ m ∈ [st.average_chat_completion_rate, st.average_user_sentiment_distribution,
           st.average_bot_tone_distribution, st.average_anydesk_required,
           st.average_response_accuracy, st.average_issue_resolution_rate,
           st.average_human_escalation_rate],
      ∃ counts : List (String × Nat),
        m = convertToPercentages rs.length counts ∧ sumCounts counts ≤ rs.length := by
  rw [calculateAggregateStats] at h
  have hlen : ¬(rs.length = 0) := by
    simpa [List.length_eq_zero] using hne
  rw [if_neg hlen] at h
  obtain ⟨cst, hfold, h⟩ := except_bind_ok h
  simp only [Except.ok.injEq] at h
  subst h
  have bounds := tallyRun_sums rs initCountStats cst hfold
  intro m hm
  simp only [List.mem_cons, List.not_mem_nil, or_false] at hm
  have hinit : sumCounts [("yes", 0), ("no", 0)] = 0 := by simp [sumCounts]
  have hinit2 : sumCounts [("true", 0), ("false", 0)] = 0 := by simp [sumCounts]
  have hinit3 : sumCounts [("resolved", 0), ("unresolved", 0)] = 0 := by simp [sumCounts]
  have hinit0 : sumCounts ([] : List (String × Nat)) = 0 := by simp [sumCounts]
  rcases hm with h | h | h | h | h | h | h <;> subst h
  · exact ⟨cst.chat_completion, rfl, by
      have := bounds.1
      rw [show initCountStats.chat_completion = [("yes", 0), ("no", 0)] from rfl, hinit] at this
      omega⟩
  · exact ⟨cst.user_sentiment, rfl, by
      have := bounds.2.1
      rw [show initCountStats.user_sentiment = [] from rfl, hinit0] at this
      omega⟩
  · exact ⟨cst.bot_tone, rfl, by
      have := bounds.2.2.1
      rw [show initCountStats.bot_tone = [] from rfl, hinit0] at this
      omega⟩
  · exact ⟨cst.anydesk_required, rfl, by
      have := bounds.2.2.2.1
      rw [show initCountStats.anydesk_required = [("true", 0), ("false", 0)] from rfl,
        hinit2] at this
      omega⟩
  · exact ⟨cst.accuracy_levels, rfl, by
      have := bounds.2.2.2.2.1
      rw [show initCountStats.accuracy_levels = [] from rfl, hinit0] at this
      omega⟩
  · exact ⟨cst.issue_resolution, rfl, by
      have := bounds.2.2.2.2.2.1
      rw [show initCountStats.issue_resolution = [("resolved", 0), ("unresolved", 0)] from rfl,
        hinit3] at this
      omega⟩
  · exact ⟨cst.human_escalation, rfl, by
      have := bounds.2.2.2.2.2.2
      rw [show initCountStats.human_escalation = [("yes", 0), ("no", 0)] from rfl,
        hinit] at this
      omega⟩

/-! ## Pipeline lemmas -/

/-- Every session contributes exactly one record: either a successful
result (counted in `processedCount`) or a failure entry — so
`processed + failed = total` and `processed` matches the result list. -/
theorem processSessions_counts (analyze : JSVal → Except String JSVal) :
    ∀ (sessions : List JSVal) (i : Nat) (res : List SessionAnalysisResult)
      (failed : List FailedSession) (processed : Nat),
      processSessions analyze sessions i = .ok (res, failed, processed) →
      processed + failed.length = sessions.length ∧ processed = res.length := by
  intro sessions
  induction sessions with
  | nil =>
      intro i res failed processed h
      simp only [processSessions, Except.ok.injEq, Prod.mk.injEq] at h
      obtain ⟨h1, h2, h3⟩ := h
      subst h1; subst h2; subst h3
      simp
  | cons session rest ih =>
      intro i res failed processed h
      rw [processSessions] at h
      obtain ⟨step, hstep, h⟩ := except_bind_ok h
      obtain ⟨⟨res2, failed2, proc2⟩, hrec, h⟩ := except_bind_ok h
      obtain ⟨hc1, hc2⟩ := ih (i + 1) res2 failed2 proc2 hrec
      cases step <;>
      · simp only [Except.ok.injEq, Prod.mk.injEq] at h
        obtain ⟨h1, h2, h3⟩ := h
        subst h1; subst h2; subst h3
        simp only [List.length_cons]
        omega

/-! ## Date-window lemmas -/

theorem jsParseDateOnly_inv {s : String} {p : ℤ} (h : jsParseDateOnly s = some p) :
    ∃ y m d, parseYMD s = some (y, m, d) ∧ p = 86400000 * daysFromCivil y m d := by
  rw [jsParseDateOnly] at h
  cases hys : parseYMD s with
  | none => rw [hys] at h; cases h
  | some ymd =>
      obtain ⟨y, m, d⟩ := ymd
      rw [hys] at h
      replace h : (if 1 ≤ m ∧ m ≤ 12 ∧ 1 ≤ d ∧ d ≤ daysInMonth y m then
          some (86400000 * daysFromCivil y m d) else none) = some p := h
      split_ifs at h with hv
      simp at h
      exact ⟨y, m, d, rfl, h.symm⟩

theorem parseDateInput_window {s : String} {st en : ℤ}
    (h : parseDateInput s = .ok (st, en)) :
    (∃ y m d, parseYMD s = some (y, m, d) ∧ st = 86400000 * daysFromCivil y m d) ∧
    en = st + 86399999 ∧ st % 86400000 = 0 := by
  rw [parseDateInput] at h
  cases hp : jsParseDateOnly s with
  | none => rw [hp] at h; cases h
  | some p =>
      rw [hp] at h
      simp only [Except.ok.injEq, Prod.mk.injEq] at h
      obtain ⟨h1, h2⟩ := h
      obtain ⟨y, m, d, hymd, hpd⟩ := jsParseDateOnly_inv hp
      have hdiv : Int.fdiv p 86400000 = daysFromCivil y m d := by
        rw [hpd]
        exact Int.mul_fdiv_cancel_left _ (by norm_num)
      constructor
      · refine ⟨y, m, d, hymd, ?_⟩
        rw [← h1, setUTCHoursOp, hdiv]
        ring
      constructor
      · rw [← h1, ← h2, setUTCHoursOp, setUTCHoursOp]
        ring
      · rw [← h1, setUTCHoursOp, hdiv]
        omega

/-- With a zero UTC offset (server running in UTC) and equal from/to dates,
the full-batch retrieval window coincides with `parseDateInput`'s UTC
window. -/
theorem getChatSessionsWindow_utc {s : String} {st en : ℤ}
    (h : parseDateInput s = .ok (st, en)) :
    getChatSessionsWindow 0 s s = .ok (st, en) := by
  rw [parseDateInput] at h
  cases hp : jsParseDateOnly s with
  | none => rw [hp] at h; cases h
  | some p =>
      rw [hp] at h
      simp only [Except.ok.injEq, Prod.mk.injEq] at h
      obtain ⟨h1, h2⟩ := h
      obtain ⟨y, m, d, hymd, hpd⟩ := jsParseDateOnly_inv hp
      have hdiv : Int.fdiv p 86400000 = daysFromCivil y m d := by
        rw [hpd]
        exact Int.mul_fdiv_cancel_left _ (by norm_num)
      have hst : st = p := by
        rw [← h1, setUTCHoursOp, hdiv, hpd]
        ring
      have hen : setHoursLocal 0 p 23 59 59 999 = en := by
        rw [← h2, setHoursLocal, setUTCHoursOp]
        norm_num
      simp only [getChatSessionsWindow, hp]
      rw [hst, ← hen]

/-! ## Claim theorems -/

theorem allMax_score_eval : calculateSessionScore allMaxAnalysis =
    .ok (.result 100 allMaxBreakdown) := by
  have e1 : issueResolutionRaw allMaxAnalysis = .ok 100 := rfl
  have e2 : escalationRaw allMaxAnalysis = .ok 100 := rfl
  have e3 : userExperienceRaw allMaxAnalysis = 100 := rfl
  have e4 : completionRaw allMaxAnalysis = .ok 100 := rfl
  have e5 : responseQualityRaw allMaxAnalysis = .ok 100 := rfl
  have e6 : accuracyRaw allMaxAnalysis = .ok 100 := rfl
  have e7 : componentsRaw allMaxAnalysis = .ok ((100 + 100 + 100 + 100) / 4) := rfl
  have e8 : sentimentRaw allMaxAnalysis = .ok 100 := rfl
  have e9 : userEffortRaw allMaxAnalysis = 100 := rfl
  have e10 : botToneRaw allMaxAnalysis = .ok 100 := rfl
  have ep : penaltiesRaw allMaxAnalysis = .ok 0 := rfl
  rw [calculateSessionScore, if_pos (by rfl)]
  rw [e1, except_ok_bind, e2, except_ok_bind, e4, except_ok_bind, e5, except_ok_bind,
      e6, except_ok_bind, e7, except_ok_bind, e8, except_ok_bind, e10, except_ok_bind,
      ep, except_ok_bind, e3, e9]
  simp only [Except.ok.injEq, ScoreOut.result.injEq]
  norm_num [jsMathRound, allMaxBreakdown, Breakdown.mk.injEq]

/-- C1: for every analysis record the scorer's `totalScore` equals
`max(0, round((weighted factor contributions + penalties) * 100) / 100)`
— the two-decimal rounding of the weighted sum plus penalties — hence is
never negative; and with every factor at its maximum mapping the ten
weighted contributions sum to exactly 100 before penalties. -/
theorem claim_C1 :
    (∀ (x : JSVal) (t : ℚ) (b : Breakdown),
      calculateSessionScore x = .ok (.result t b) →
      t = max 0 ((jsMathRound ((b.issueResolution + b.escalationAvoidance +
          b.userExperience + b.chatCompletion + b.responseQuality + b.accuracy +
          b.responseComponents + b.userSentiment + b.userEffort + b.botTone +
          b.penalties) * 100) : ℚ) / 100) ∧ 0 ≤ t) ∧
    calculateSessionScore allMaxAnalysis = .ok (.result 100 allMaxBreakdown) ∧
    allMaxBreakdown.issueResolution + allMaxBreakdown.escalationAvoidance +
      allMaxBreakdown.userExperience + allMaxBreakdown.chatCompletion +
      allMaxBreakdown.responseQuality + allMaxBreakdown.accuracy +
      allMaxBreakdown.responseComponents + allMaxBreakdown.userSentiment +
      allMaxBreakdown.userEffort + allMaxBreakdown.botTone = 100 ∧
    allMaxBreakdown.penalties = 0 :=
  ⟨fun _ _ _ h => calculateSessionScore_result h, allMax_score_eval,
   by norm_num [allMaxBreakdown], rfl⟩

/-- Witness for C1 at `allMaxAnalysis`. -/
theorem claim_C1_witness :
    calculateSessionScore allMaxAnalysis = .ok (.result 100 allMaxBreakdown) ∧
    ((100 : ℚ) = max 0 ((jsMathRound ((allMaxBreakdown.issueResolution +
        allMaxBreakdown.escalationAvoidance + allMaxBreakdown.userExperience +
        allMaxBreakdown.chatCompletion + allMaxBreakdown.responseQuality +
        allMaxBreakdown.accuracy + allMaxBreakdown.responseComponents +
        allMaxBreakdown.userSentiment + allMaxBreakdown.userEffort +
        allMaxBreakdown.botTone + allMaxBreakdown.penalties) * 100) : ℚ) / 100) ∧
      (0 : ℚ) ≤ 100) :=
  ⟨allMax_score_eval, claim_C1.1 allMaxAnalysis 100 allMaxBreakdown allMax_score_eval⟩

/-- C2: normalization is idempotent.  Whenever `normalizeAnalysisResult`
returns a value (record or not), normalizing that returned value returns
it identically — and, the input now being fully lower-cased, leaves it
unchanged too. -/
theorem claim_C2 :
    ∀ (x r p : JSVal), normalizeAnalysisResult x = .ok (r, p) →
      normalizeAnalysisResult r = .ok (r, r) := by
  intro x r p h
  cases x with
  | vObj fields =>
      rw [normalizeAnalysisResult] at h
      cases hn : normalizeFields fields with
      | error e => rw [hn] at h; simp [Except.map] at h
      | ok rp =>
          rw [hn] at h
          simp only [Except.map, Except.ok.injEq, Prod.mk.injEq] at h
          obtain ⟨h1, h2⟩ := h
          have hidem := normalizeFields_idem
            (show normalizeFields fields = .ok (rp.1, rp.2) from by rw [hn])
          rw [← h1, normalizeAnalysisResult, hidem]
          rfl
  | vNull =>
      simp only [normalizeAnalysisResult, Except.ok.injEq, Prod.mk.injEq] at h
      rw [← h.1]
      rfl
  | vUndef =>
      simp only [normalizeAnalysisResult, Except.ok.injEq, Prod.mk.injEq] at h
      rw [← h.1]
      rfl
  | vBool b =>
      simp only [normalizeAnalysisResult, Except.ok.injEq, Prod.mk.injEq] at h
      rw [← h.1]
      rfl
  | vNum n =>
      simp only [normalizeAnalysisResult, Except.ok.injEq, Prod.mk.injEq] at h
      rw [← h.1]
      rfl
  | vStr s =>
      simp only [normalizeAnalysisResult, Except.ok.injEq, Prod.mk.injEq] at h
      rw [← h.1]
      rfl

/-- Witness for C2: a concrete mixed-case record, its normalization, and
the renormalization returning it unchanged. -/
theorem claim_C2_witness :
    normalizeAnalysisResult mixedCaseAnalysis =
      .ok (vObj [("accuracy_level", vStr "correct"),
                 ("user_sentiment", vObj [("sentiment", vStr "positive")])],
           vObj [("accuracy_level", vStr "Correct"),
                 ("user_sentiment", vObj [("sentiment", vStr "positive")])]) ∧
    normalizeAnalysisResult
        (vObj [("accuracy_level", vStr "correct"),
               ("user_sentiment", vObj [("sentiment", vStr "positive")])]) =
      .ok (vObj [("accuracy_level", vStr "correct"),
                 ("user_sentiment", vObj [("sentiment", vStr "positive")])],
           vObj [("accuracy_level", vStr "correct"),
                 ("user_sentiment", vObj [("sentiment", vStr "positive")])]) :=
  ⟨rfl, claim_C2 mixedCaseAnalysis _ _ rfl⟩

theorem empty_score_eval : calculateSessionScore (vObj []) =
    .ok (.result 0 zeroBreakdown) := by
  have e1 : issueResolutionRaw (vObj []) = .ok 0 := rfl
  have e2 : escalationRaw (vObj []) = .ok 0 := rfl
  have e3 : userExperienceRaw (vObj []) = 0 := rfl
  have e4 : completionRaw (vObj []) = .ok 0 := rfl
  have e5 : responseQualityRaw (vObj []) = .ok 0 := rfl
  have e6 : accuracyRaw (vObj []) = .ok 0 := rfl
  have e7 : componentsRaw (vObj []) = .ok 0 := rfl
  have e8 : sentimentRaw (vObj []) = .ok 0 := rfl
  have e9 : userEffortRaw (vObj []) = 0 := rfl
  have e10 : botToneRaw (vObj []) = .ok 0 := rfl
  have ep : penaltiesRaw (vObj []) = .ok 0 := rfl
  rw [calculateSessionScore, if_pos (by rfl)]
  rw [e1, except_ok_bind, e2, except_ok_bind, e4, except_ok_bind, e5, except_ok_bind,
      e6, except_ok_bind, e7, except_ok_bind, e8, except_ok_bind, e10, except_ok_bind,
      ep, except_ok_bind, e3, e9]
  simp only [Except.ok.injEq, ScoreOut.result.injEq]
  norm_num [jsMathRound, zeroBreakdown, Breakdown.mk.injEq]

/-- C3 counterexample: the claim "neither normalization nor scoring ever
throws; a non-string value at a targeted enum path is left unchanged /
scores zero" is false.  A truthy non-string at an unguarded nested enum
path makes `.toLowerCase()` throw a `TypeError` in the normalizer, and
likewise in the scorer. -/
theorem claim_C3_counterexample :
    normalizeAnalysisResult (vObj [("bot_tone", vObj [("tone", vNum 5)])]) = .error () ∧
    calculateSessionScore (vObj [("is_chat_completed", vNum 1)]) = .error () :=
  ⟨rfl, rfl⟩

/-- C3 (amended): normalization and scoring never throw PROVIDED every
truthy value at a targeted enum path is a string (absent and falsy fields
are fine and contribute zero — scoring an empty record yields a total of 0
with an all-zero breakdown); a truthy non-string at an unguarded nested
path throws a `TypeError`. -/
theorem claim_C3 :
    (∀ x : JSVal, normalizeSafe x = true → ∃ rp, normalizeAnalysisResult x = .ok rp) ∧
    (∀ x : JSVal, scoreSafe x = true → (calculateSessionScore x).isOk = true) ∧
    calculateSessionScore (vObj []) = .ok (.result 0 zeroBreakdown) := by
  refine ⟨?_, fun x hx => calculateSessionScore_ok_of_safe hx, empty_score_eval⟩
  intro x hx
  cases x with
  | vObj fields =>
      obtain ⟨rp, hrp⟩ := normalizeFields_ok_of_safe hx
      exact ⟨(vObj rp.1, vObj rp.2), by rw [normalizeAnalysisResult, hrp]; rfl⟩
  | vNull => exact ⟨(vNull, vNull), rfl⟩
  | vUndef => exact ⟨(vUndef, vUndef), rfl⟩
  | vBool b => exact ⟨(vBool b, vBool b), rfl⟩
  | vNum n => exact ⟨(vNum n, vNum n), rfl⟩
  | vStr s => exact ⟨(vStr s, vStr s), rfl⟩

/-- Witness for C3 at `safeEnumAnalysis`. -/
theorem claim_C3_witness :
    (∃ rp, normalizeAnalysisResult safeEnumAnalysis = .ok rp) ∧
    (calculateSessionScore safeEnumAnalysis).isOk = true :=
  ⟨claim_C3.1 safeEnumAnalysis rfl, claim_C3.2.1 safeEnumAnalysis rfl⟩

/-- C5 counterexample: the claim "the normalizer has no side effects and
leaves the input (including nested groups) unchanged" is false.  The
shallow copy shares nested objects with the input, so normalizing
`{human_escalation: {is_escalated: "NO"}}` lower-cases the string inside
the caller's own object: after the call the input holds `"no"`, not
`"NO"`. -/
theorem claim_C5_counterexample :
    normalizeAnalysisResult (vObj [("human_escalation", vObj [("is_escalated", vStr "NO")])]) =
      .ok (vObj [("human_escalation", vObj [("is_escalated", vStr "no")])],
           vObj [("human_escalation", vObj [("is_escalated", vStr "no")])]) ∧
    vObj [("human_escalation", vObj [("is_escalated", vStr "no")])] ≠
      vObj [("human_escalation", vObj [("is_escalated", vStr "NO")])] := by
  refine ⟨rfl, ?_⟩
  intro hcontra
  injection hcontra with hl
  injection hl with hhd
  injection hhd with hk hv
  injection hv with hq
  injection hq with hhd2
  injection hhd2 with hk2 hv2
  injection hv2 with hs
  exact absurd hs (by decide)

/-- C5 (amended): a successful normalization of an object never reassigns
the input's top-level fields — every key outside the seven nested group
keys (in particular the three top-level enum strings) reads the same in
the input afterwards — but the seven nested groups are shared with the
returned value: after the call the input's nested groups are exactly the
returned (lower-cased) ones. -/
theorem claim_C5 :
    ∀ (fields : List (String × JSVal)) (res inp : JSVal),
      normalizeAnalysisResult (vObj fields) = .ok (res, inp) →
      ∃ rf pf, res = vObj rf ∧ inp = vObj pf ∧
        (∀ k : String, k ∉ nestedGroupKeys → getF pf k = getF fields k) ∧
        (∀ k ∈ nestedGroupKeys, getF pf k = getF rf k) := by
  intro fields res inp h
  rw [normalizeAnalysisResult] at h
  cases hn : normalizeFields fields with
  | error e => rw [hn] at h; simp [Except.map] at h
  | ok rp =>
      rw [hn] at h
      simp only [Except.map, Except.ok.injEq, Prod.mk.injEq] at h
      obtain ⟨h1, h2⟩ := h
      have hpost := normalizeFields_post
        (show normalizeFields fields = .ok (rp.1, rp.2) from by rw [hn])
      exact ⟨rp.1, rp.2, h1.symm, h2.symm, hpost.1, hpost.2⟩

/-- Witness for C5 at a concrete record with a top-level enum string and a
nested group. -/
theorem claim_C5_witness :
    ∃ rf pf,
      (vObj [("accuracy_level", vStr "correct"),
             ("human_escalation", vObj [("is_escalated", vStr "no")])]) = vObj rf ∧
      (vObj [("accuracy_level", vStr "Correct"),
             ("human_escalation", vObj [("is_escalated", vStr "no")])]) = vObj pf ∧
      (∀ k : String, k ∉ nestedGroupKeys →
        getF pf k = getF [("accuracy_level", vStr "Correct"),
          ("human_escalation", vObj [("is_escalated", vStr "NO")])] k) ∧
      (∀ k ∈ nestedGroupKeys, getF pf k = getF rf k) :=
  claim_C5 [("accuracy_level", vStr "Correct"),
    ("human_escalation", vObj [("is_escalated", vStr "NO")])] _ _ rfl

/-- C9: a falsy analysis — in particular `null` or `undefined` — makes the
scorer return the plain number `0` (line 218), while any truthy analysis
gets a `{ totalScore, breakdown }` record (line 394): the scorer's result
shape is a non-uniform sum at its public interface. -/
theorem claim_C9 :
    calculateSessionScore vNull = .ok (.num 0) ∧
    calculateSessionScore vUndef = .ok (.num 0) ∧
    calculateSessionScore (vObj []) = .ok (.result 0 zeroBreakdown) ∧
    ScoreOut.isBareNum (.num 0) = true ∧
    ScoreOut.isBareNum (.result 0 zeroBreakdown) = false :=
  ⟨rfl, rfl, empty_score_eval, rfl, rfl⟩

/-- C8: aggregation over zero sessions returns the fixed record in which
the four boolean-keyed distributions report 0 for both outcomes, the other
categorical distributions are empty mappings, and both numeric averages
are 0 — it returns normally (no exception, no division by zero). -/
theorem claim_C8 :
    calculateAggregateStats [] =
      .ok { average_chat_completion_rate := [("yes", 0), ("no", 0)]
            average_user_sentiment_distribution := []
            average_bot_tone_distribution := []
            average_anydesk_required := [("true", 0), ("false", 0)]
            average_user_experience_level := 0
            average_user_effort_level := 0
            average_response_accuracy := []
            average_issue_resolution_rate := [("resolved", 0), ("unresolved", 0)]
            average_human_escalation_rate := [("yes", 0), ("no", 0)] } := rfl

/-- C10: an issue status outside the seeded keys ("Pending") is counted
under its own lower-cased key: the reported issue-resolution distribution
gains a third key `"pending"` at 100% while the seeded `"resolved"` and
`"unresolved"` keys stay at 0 — so the boolean-keyed map can hold more
than its two seeded keys and `"unresolved"` is not the complement of
`"resolved"`. -/
theorem claim_C10 :
    (calculateAggregateStats
        [vObj [("analysis", vObj [("issue_status", vObj [("status", vStr "Pending")])])]]).map
      (fun st => st.average_issue_resolution_rate)
      = .ok [("resolved", 0), ("unresolved", 0), ("pending", 100)] ∧
    ([("resolved", 0), ("unresolved", 0), ("pending", 100)] : List (String × ℤ)).length = 3 := by
  have hf : List.foldlM tallySession initCountStats
      [vObj [("analysis", vObj [("issue_status", vObj [("status", vStr "Pending")])])]] =
      .ok { chat_completion := [("yes", 0), ("no", 0)]
            user_sentiment := []
            bot_tone := []
            anydesk_required := [("true", 0), ("false", 0)]
            user_experience_levels := []
            user_effort_levels := []
            accuracy_levels := []
            issue_resolution := [("resolved", 0), ("unresolved", 0), ("pending", 1)]
            human_escalation := [("yes", 0), ("no", 0)] } := rfl
  constructor
  · rw [calculateAggregateStats, if_neg (by decide), hf, except_ok_bind]
    simp only [Except.map, Except.ok.injEq]
    simp only [convertToPercentages, List.map_cons, List.map_nil]
    norm_num [jsMathRound]
  · rfl

theorem sentimentBatch8_fold : List.foldlM tallySession initCountStats sentimentBatch8 =
    .ok { chat_completion := [("yes", 0), ("no", 0)]
          user_sentiment := [("positive", 3), ("negative", 3), ("neutral", 2)]
          bot_tone := []
          anydesk_required := [("true", 0), ("false", 0)]
          user_experience_levels := []
          user_effort_levels := []
          accuracy_levels := []
          issue_resolution := [("resolved", 0), ("unresolved", 0)]
          human_escalation := [("yes", 0), ("no", 0)] } := rfl

/-- C4 counterexample: the claim "the percentages of a field sum to at
most 100" is false.  With 8 sessions split 3/3/2 over three sentiments,
`Math.round` maps 37.5 to 38 twice, and 38+38+25 = 101 > 100. -/
theorem claim_C4_counterexample :
    (calculateAggregateStats sentimentBatch8).map
        (fun st => (st.average_user_sentiment_distribution.map (fun kv => kv.2)).sum)
      = .ok 101 ∧ ¬((101 : ℤ) ≤ 100) := by
  constructor
  · rw [calculateAggregateStats, if_neg (by decide), sentimentBatch8_fold, except_ok_bind]
    simp only [Except.map, Except.ok.injEq]
    simp only [convertToPercentages, List.map_cons, List.map_nil]
    norm_num [jsMathRound, sentimentBatch8, sentimentSession]
  · decide

/-- C4 (amended): in a non-empty aggregation, every categorical field is
reported as `round(count / totalSessions * 100)` per observed key with the
denominator always the total number of aggregated sessions, and each
field's underlying counts sum to at most that total (each session counted
at most once per field) — so the unrounded shares sum to at most 100%, but
the half-up-rounded reported percentages can only be bounded by
`100 + (number of keys)/2` and may exceed 100 (they reach 101 in the
counterexample). -/
theorem claim_C4 :
    ∀ (rs : List JSVal) (st : AggregateStats), rs ≠ [] →
      calculateAggregateStats rs = .ok st →
      ∀ m ∈ [st.average_chat_completion_rate, st.average_user_sentiment_distribution,
             st.average_bot_tone_distribution, st.average_anydesk_required,
             st.average_response_accuracy, st.average_issue_resolution_rate,
             st.average_human_escalation_rate],
        (∃ counts : List (String × Nat),
          m = convertToPercentages rs.length counts ∧ sumCounts counts ≤ rs.length) ∧
        ((m.map (fun kv => kv.2)).sum : ℚ) ≤ 100 + (m.length : ℚ) / 2 := by
  intro rs st hne h m hm
  obtain ⟨counts, hm2, hc⟩ := calculateAggregateStats_fields hne h m hm
  refine ⟨⟨counts, hm2, hc⟩, ?_⟩
  rw [hm2]
  have hlen : (convertToPercentages rs.length counts).length = counts.length :=
    List.length_map _ _
  rw [hlen]
  exact convert_sum_le rs.length (List.length_pos.mpr hne) counts hc

theorem sentimentBatch8_eval :
    calculateAggregateStats sentimentBatch8 = .ok sentimentStats8 := by
  rw [calculateAggregateStats, if_neg (by decide), sentimentBatch8_fold, except_ok_bind]
  simp only [Except.ok.injEq, sentimentStats8]
  simp only [convertToPercentages, List.map_cons, List.map_nil, avgLevel]
  norm_num [jsMathRound, sentimentBatch8, sentimentSession, AggregateStats.mk.injEq]

/-- Witness for C4 on the sentiment distribution of `sentimentBatch8`. -/
theorem claim_C4_witness :
    (∃ counts : List (String × Nat),
      sentimentStats8.average_user_sentiment_distribution =
        convertToPercentages sentimentBatch8.length counts ∧
      sumCounts counts ≤ sentimentBatch8.length) ∧
    ((sentimentStats8.average_user_sentiment_distribution.map (fun kv => kv.2)).sum : ℚ) ≤
      100 + (sentimentStats8.average_user_sentiment_distribution.length : ℚ) / 2 :=
  claim_C4 sentimentBatch8 sentimentStats8 (by simp [sentimentBatch8, sentimentSession])
    sentimentBatch8_eval _ (by simp)

theorem resolved_score_eval : calculateSessionScore resolvedOnlyAnalysis =
    .ok (.result 25 resolvedBreakdown) := by
  have e1 : issueResolutionRaw resolvedOnlyAnalysis = .ok 100 := rfl
  have e2 : escalationRaw resolvedOnlyAnalysis = .ok 0 := rfl
  have e3 : userExperienceRaw resolvedOnlyAnalysis = 0 := rfl
  have e4 : completionRaw resolvedOnlyAnalysis = .ok 0 := rfl
  have e5 : responseQualityRaw resolvedOnlyAnalysis = .ok 0 := rfl
  have e6 : accuracyRaw resolvedOnlyAnalysis = .ok 0 := rfl
  have e7 : componentsRaw resolvedOnlyAnalysis = .ok 0 := rfl
  have e8 : sentimentRaw resolvedOnlyAnalysis = .ok 0 := rfl
  have e9 : userEffortRaw resolvedOnlyAnalysis = 0 := rfl
  have e10 : botToneRaw resolvedOnlyAnalysis = .ok 0 := rfl
  have ep : penaltiesRaw resolvedOnlyAnalysis = .ok 0 := rfl
  rw [calculateSessionScore, if_pos (by rfl)]
  rw [e1, except_ok_bind, e2, except_ok_bind, e4, except_ok_bind, e5, except_ok_bind,
      e6, except_ok_bind, e7, except_ok_bind, e8, except_ok_bind, e10, except_ok_bind,
      ep, except_ok_bind, e3, e9]
  simp only [Except.ok.injEq, ScoreOut.result.injEq]
  norm_num [jsMathRound, resolvedBreakdown, Breakdown.mk.injEq]

theorem processOne_ok_score (analyze : JSVal → Except String JSVal) (i : Nat)
    (session sid raw norm post : JSVal) (sc : ScoreOut)
    (hsid : deriveSessionId session = .ok sid) (htruthy : sid.truthy = true)
    (han : analyze sid = .ok raw)
    (hnorm : normalizeAnalysisResult raw = .ok (norm, post))
    (hscore : calculateSessionScore norm = .ok sc) :
    processOne analyze i session = .ok (.inl ⟨sid, norm, sc⟩) := by
  rw [processOne, hsid, except_ok_bind, if_neg (by simp [htruthy])]
  simp only [han, hnorm, hscore]

theorem processOne_fail (analyze : JSVal → Except String JSVal) (i : Nat)
    (session sid : JSVal) (msg : String)
    (hsid : deriveSessionId session = .ok sid) (htruthy : sid.truthy = true)
    (han : analyze sid = .error msg) :
    processOne analyze i session = .ok (.inr ⟨some sid, msg, i⟩) := by
  rw [processOne, hsid, except_ok_bind, if_neg (by simp [htruthy])]
  simp only [han]

theorem processSessions_scenario :
    processSessions timeoutOracle scenarioSessions 0 =
      .ok ([⟨vStr "s1", resolvedOnlyAnalysis, .result 25 resolvedBreakdown⟩,
            ⟨vStr "s3", resolvedOnlyAnalysis, .result 25 resolvedBreakdown⟩],
           [⟨some (vStr "s2"), "timeout of 300000ms exceeded", 1⟩], 2) := by
  have h1 := processOne_ok_score timeoutOracle 0 (mkSession "s1") (vStr "s1")
    rawResolved resolvedOnlyAnalysis resolvedOnlyAnalysis (.result 25 resolvedBreakdown)
    rfl rfl rfl rfl resolved_score_eval
  have h2 := processOne_fail timeoutOracle 1 (mkSession "s2") (vStr "s2")
    "timeout of 300000ms exceeded" rfl rfl rfl
  have h3 := processOne_ok_score timeoutOracle 2 (mkSession "s3") (vStr "s3")
    rawResolved resolvedOnlyAnalysis resolvedOnlyAnalysis (.result 25 resolvedBreakdown)
    rfl rfl rfl rfl resolved_score_eval
  show processSessions timeoutOracle
    [mkSession "s1", mkSession "s2", mkSession "s3"] 0 = _
  rw [processSessions, h1, except_ok_bind,
      processSessions, h2, except_ok_bind,
      processSessions, h3, except_ok_bind,
      processSessions]
  rfl

/-- C6: no single session's failure aborts the batch — every session
yields exactly one record, so `processed + failed = total` and `processed`
matches the result list; in the 3-session scenario where the external call
for session "s2" times out, the batch completes with `processed = 2`,
`failed = 1`, and the failed entry carries the session id and the timeout
reason. -/
theorem claim_C6 :
    (∀ (analyze : JSVal → Except String JSVal) (sessions : List JSVal)
       (res : List SessionAnalysisResult) (failed : List FailedSession) (processed : Nat),
       processSessions analyze sessions 0 = .ok (res, failed, processed) →
       processed + failed.length = sessions.length ∧ processed = res.length) ∧
    processSessions timeoutOracle scenarioSessions 0 =
      .ok ([⟨vStr "s1", resolvedOnlyAnalysis, .result 25 resolvedBreakdown⟩,
            ⟨vStr "s3", resolvedOnlyAnalysis, .result 25 resolvedBreakdown⟩],
           [⟨some (vStr "s2"), "timeout of 300000ms exceeded", 1⟩], 2) :=
  ⟨fun analyze sessions res failed processed h =>
      processSessions_counts analyze sessions 0 res failed processed h,
   processSessions_scenario⟩

/-- Witness for C6 at the timeout scenario. -/
theorem claim_C6_witness :
    2 + ([⟨some (vStr "s2"), "timeout of 300000ms exceeded", 1⟩] : List FailedSession).length
      = scenarioSessions.length ∧
    2 = ([⟨vStr "s1", resolvedOnlyAnalysis, .result 25 resolvedBreakdown⟩,
          ⟨vStr "s3", resolvedOnlyAnalysis, .result 25 resolvedBreakdown⟩]
            : List SessionAnalysisResult).length :=
  claim_C6.1 timeoutOracle scenarioSessions _ _ 2 claim_C6.2

/-- C7 counterexample: the claim "session retrieval queries the inclusive
UTC window [00:00:00.000Z, 23:59:59.999Z]" is false for the full-batch
retrieval (`getChatSessions`): its `endDate.setHours(23,59,59,999)` sets
the clock in server-local time, so on a server at UTC+05:30 the window for
"2025-03-20" ends at 1742495399999 (18:29:59.999Z), not at the UTC day end
1742515199999; `parseDateInput` does yield the UTC window. -/
theorem claim_C7_counterexample :
    getChatSessionsWindow 330 "2025-03-20" "2025-03-20" =
      .ok (1742428800000, 1742495399999) ∧
    parseDateInput "2025-03-20" = .ok (1742428800000, 1742515199999) ∧
    (1742495399999 : ℤ) ≠ 1742515199999 :=
  ⟨rfl, rfl, by decide⟩

/-- C7 (amended): for every `YYYY-MM-DD` date string, `parseDateInput`
yields exactly the inclusive UTC day window — the start is the parsed
day's UTC midnight, the end is start + 86399999 ms (23:59:59.999Z), and
the Mongo date filter matches a timestamp iff it lies within the window,
inclusive on both ends; `getChatSessions`'s window coincides with it only
for a server whose UTC offset is zero. -/
theorem claim_C7 :
    (∀ (s : String) (st en : ℤ), parseDateInput s = .ok (st, en) →
      (∃ y m d, parseYMD s = some (y, m, d) ∧ st = 86400000 * daysFromCivil y m d) ∧
      en = st + 86399999 ∧ st % 86400000 = 0 ∧
      (∀ t : ℤ, sessionMatchesDateFilter st en (some t) none none none = true ↔
        st ≤ t ∧ t ≤ en)) ∧
    (∀ (s : String) (st en : ℤ), parseDateInput s = .ok (st, en) →
      getChatSessionsWindow 0 s s = .ok (st, en)) := by
  constructor
  · intro s st en h
    obtain ⟨hymd, hen, hmod⟩ := parseDateInput_window h
    refine ⟨hymd, hen, hmod, ?_⟩
    intro t
    simp [sessionMatchesDateFilter, tsInWindow]
  · intro s st en h
    exact getChatSessionsWindow_utc h

/-- Witness for C7 at "2025-03-20". -/
theorem claim_C7_witness :
    ((∃ y m d, parseYMD "2025-03-20" = some (y, m, d) ∧
        (1742428800000 : ℤ) = 86400000 * daysFromCivil y m d) ∧
      (1742515199999 : ℤ) = 1742428800000 + 86399999 ∧
      (1742428800000 : ℤ) % 86400000 = 0 ∧
      (∀ t : ℤ, sessionMatchesDateFilter 1742428800000 1742515199999
          (some t) none none none = true ↔
        1742428800000 ≤ t ∧ t ≤ 1742515199999)) ∧
    getChatSessionsWindow 0 "2025-03-20" "2025-03-20" =
      .ok (1742428800000, 1742515199999) :=
  ⟨claim_C7.1 "2025-03-20" 1742428800000 1742515199999 rfl,
   claim_C7.2 "2025-03-20" 1742428800000 1742515199999 rfl⟩
